import Mathlib

/-!
Verification of the timeflow offline-first sync subsystem.

Shallow embedding of the local store layer (`src/lib/db.ts`) and the
push/pull sync engine (`syncPush`, `syncPull`, the entity mappers, and the
pull row processor).  Conventions of the embedding:

* IndexedDB tables are association lists in insertion order; Dexie's
  `add` appends (generated ids carry a fresh counter, so key collisions
  of the source's random ids are not modelled), `put` replaces the row
  with the same primary key (or appends), `delete` removes by key, and
  `update` edits the row with the given key in place.
* `Date.now()` is modelled by a `clock` field of the state; all readings
  inside one modelled operation return the same wall-clock value, which
  matches the code's behaviour at millisecond granularity.
* The `Math.random()` suffix of generated ids is modelled by a `gen`
  counter, guaranteeing freshness.
* ISO-8601 timestamp strings are modelled by their epoch-millisecond
  value: `new Date(ms).toISOString()` and `new Date(iso).getTime()` are
  mutually inverse on integer milliseconds, so the encoding is a
  bijection and carried as `Nat`.
* JavaScript truthiness on optional numbers (`x ? a : b`, `!x`, `x || y`)
  treats `0` as falsy and on optional strings treats `""` as falsy; the
  helpers `truthyNum`, `jsOrNoneNat`, `jsOrNoneStr` reproduce this.
* The Supabase network boundary is a parameter: for push, an oracle
  `remote : OutboxEvent → Option String` (`none` = success, `some msg` =
  error); for pull, the fetched row lists are passed in directly.
* Dexie's `where('status').equals(..).or(..)` union queries do not
  guarantee a result order; the selected push batch is therefore any
  list admissible per `AdmissibleBatch` (a permutation prefix of the
  eligible events, truncated at the batch size).
-/

namespace Timeflow

/-- JS truthiness of an optional number (`undefined` and `0` are falsy). -/
def truthyNum : Option Nat → Bool
  | some n => n != 0
  | none => false

/-- JS `x || null` / `x || undefined` on an optional string: falsy values
(`undefined`, `""`) collapse to absent. -/
def jsOrNoneStr : Option String → Option String
  | some s => if s == "" then none else some s
  | none => none

/-- JS `x || null` / `x || undefined` on an optional number: falsy values
(`undefined`, `0`) collapse to absent. -/
def jsOrNoneNat : Option Nat → Option Nat
  | some n => if n == 0 then none else some n
  | none => none

/-- `t.find?` by primary key, as Dexie `Table.get(id)`. -/
def findById (key : α → String) (t : List α) (i : String) : Option α :=
  t.find? (fun e => key e == i)

/-- Dexie `Table.put(e)`: replace the row with the same primary key, or
append if absent. -/
def putById (key : α → String) (t : List α) (e : α) : List α :=
  if t.any (fun x => key x == key e) then
    t.map (fun x => if key x == key e then e else x)
  else t ++ [e]

/-- Dexie `Table.delete(id)`: remove the row with the given key. -/
def deleteById (key : α → String) (t : List α) (i : String) : List α :=
  t.filter (fun e => key e != i)

/-- Local `TimeSlot` entity (`src/lib/types` as used by `db.ts`). -/
structure TimeSlot where
  id : String
  start : Nat
  «end» : Nat
  note : Option String
  tagIds : List String
  energy : Option Nat
  mood : Option Nat
  version : Nat
  createdAt : Nat
  updatedAt : Nat
  userId : Option String
  clientId : String
  deletedAt : Option Nat
  deriving DecidableEq, Repr

/-- Local `Tag` entity. -/
structure Tag where
  id : String
  domainId : String
  name : String
  color : Option String
  createdAt : Nat
  updatedAt : Nat
  userId : Option String
  clientId : String
  deletedAt : Option Nat
  archivedAt : Option Nat
  deriving DecidableEq, Repr

/-- Local `DomainEntity`. -/
structure DomainEntity where
  id : String
  name : String
  color : String
  colorEnd : Option String
  order : Nat
  createdAt : Nat
  updatedAt : Nat
  userId : Option String
  clientId : String
  deletedAt : Option Nat
  archivedAt : Option Nat
  deriving DecidableEq, Repr

/-- Local `DailyLog` entity. -/
structure DailyLog where
  id : String
  date : String
  markdown : String
  createdAt : Nat
  updatedAt : Nat
  userId : Option String
  clientId : String
  deletedAt : Option Nat
  deriving DecidableEq, Repr

/-- The four entity collections (`OutboxEvent['entity']`). -/
inductive EntityKind where
  | timeslots
  | tags
  | domains
  | dailyLogs
  deriving DecidableEq, Repr

/-- Outbox operations. -/
inductive Op where
  | create
  | update
  | delete
  deriving DecidableEq, Repr

/-- Outbox event status. -/
inductive Status where
  | pending
  | syncing
  | synced
  | failed
  deriving DecidableEq, Repr

/-- The `any`-typed outbox payload, as a tagged union over the four
entity kinds. -/
inductive Payload where
  | slot : TimeSlot → Payload
  | tag : Tag → Payload
  | domain : DomainEntity → Payload
  | dailyLog : DailyLog → Payload
  deriving DecidableEq, Repr

def EntityKind.str : EntityKind → String
  | .timeslots => "timeslots"
  | .tags => "tags"
  | .domains => "domains"
  | .dailyLogs => "dailyLogs"

def Op.str : Op → String
  | .create => "create"
  | .update => "update"
  | .delete => "delete"

/-- `OutboxEvent` (`src/lib/types` as used by `db.ts` and the sync engine). -/
structure OutboxEvent where
  id : String
  entity : EntityKind
  operation : Op
  entityId : String
  payload : Payload
  idempotencyKey : String
  userId : Option String
  clientId : String
  status : Status
  retryCount : Nat
  lastError : Option String
  createdAt : Nat
  syncedAt : Option Nat
  deriving DecidableEq, Repr

/-- `SyncState` singleton record (keyed by `'sync_cursor'`).  Fields not
present in a JS `put` object are `undefined`, i.e. `none`. -/
structure SyncState where
  id : String
  lastPullCursor : Option Nat
  lastPullAt : Option Nat
  lastPushAt : Option Nat
  userId : Option String
  deriving DecidableEq, Repr

/-- `ConflictRecord` audit entry. -/
structure ConflictRecord where
  id : String
  entity : EntityKind
  entityId : String
  localVersion : Payload
  serverVersion : Payload
  conflictedAt : Nat
  deriving DecidableEq, Repr

/-- The whole local Dexie database plus the modelled ambient clock and
fresh-id counter. -/
structure DB where
  timeslots : List TimeSlot
  tags : List Tag
  domains : List DomainEntity
  dailyLogs : List DailyLog
  outbox : List OutboxEvent
  syncState : Option SyncState
  conflicts : List ConflictRecord
  clock : Nat
  gen : Nat
  deriving DecidableEq, Repr

/-- Ambient identity context: `getCurrentUserId()` and
`getOrCreateClientId()`. -/
structure Ctx where
  userId : Option String
  clientId : String
  deriving DecidableEq, Repr

/-- Generated id `{p}_{Date.now()}_{random}`, the random suffix modelled
by the fresh counter. -/
def freshId (p : String) (db : DB) : String × DB :=
  (p ++ "_" ++ toString db.clock ++ "_" ++ toString db.gen,
    { db with gen := db.gen + 1 })

/-- `addToOutbox` (`db.ts`): build the pending event and append it. -/
def addToOutbox (ctx : Ctx) (db : DB) (entity : EntityKind) (operation : Op)
    (entityId : String) (payload : Payload) : OutboxEvent × DB :=
  let now := db.clock
  let (eid, db1) := freshId "outbox" db
  let event : OutboxEvent :=
    { id := eid
      entity := entity
      operation := operation
      entityId := entityId
      payload := payload
      idempotencyKey :=
        entity.str ++ "_" ++ operation.str ++ "_" ++ entityId ++ "_" ++ toString now
      userId := ctx.userId
      clientId := ctx.clientId
      status := .pending
      retryCount := 0
      lastError := none
      createdAt := now
      syncedAt := none }
  (event, { db1 with outbox := db1.outbox ++ [event] })

/-- Caller-supplied fields of `createTimeSlot`. -/
structure TimeSlotInput where
  start : Nat
  «end» : Nat
  note : Option String
  tagIds : List String
  energy : Option Nat
  mood : Option Nat
  deriving DecidableEq, Repr

/-- `dbHelpers.createTimeSlot`. -/
def createTimeSlot (ctx : Ctx) (db : DB) (slot : TimeSlotInput) : TimeSlot × DB :=
  let now := db.clock
  let (sid, db1) := freshId "slot" db
  let newSlot : TimeSlot :=
    { id := sid
      start := slot.start
      «end» := slot.«end»
      note := slot.note
      tagIds := slot.tagIds
      energy := slot.energy
      mood := slot.mood
      version := 1
      createdAt := now
      updatedAt := now
      userId := ctx.userId
      clientId := ctx.clientId
      deletedAt := none }
  let db2 := { db1 with timeslots := db1.timeslots ++ [newSlot] }
  let (_, db3) := addToOutbox ctx db2 .timeslots .create newSlot.id (.slot newSlot)
  (newSlot, db3)

/-- `Partial<TimeSlot>` as passed by callers of `updateTimeSlot`. -/
structure TimeSlotPatch where
  start : Option Nat := none
  «end» : Option Nat := none
  note : Option (Option String) := none
  tagIds : Option (List String) := none
  energy : Option (Option Nat) := none
  mood : Option (Option Nat) := none
  deriving DecidableEq, Repr

/-- `dbHelpers.updateTimeSlot`: fails with NotFound when absent, merges the
patch, bumps `version` and `updatedAt`, writes and records the event. -/
def updateTimeSlot (ctx : Ctx) (db : DB) (i : String) (u : TimeSlotPatch) :
    Except String (TimeSlot × DB) :=
  match findById TimeSlot.id db.timeslots i with
  | none => .error "TimeSlot not found"
  | some existing =>
    let updated : TimeSlot :=
      { id := existing.id
        start := u.start.getD existing.start
        «end» := u.«end».getD existing.«end»
        note := u.note.getD existing.note
        tagIds := u.tagIds.getD existing.tagIds
        energy := u.energy.getD existing.energy
        mood := u.mood.getD existing.mood
        version := existing.version + 1
        createdAt := existing.createdAt
        updatedAt := db.clock
        userId := existing.userId
        clientId := existing.clientId
        deletedAt := existing.deletedAt }
    let db1 := { db with timeslots := putById TimeSlot.id db.timeslots updated }
    let (_, db2) := addToOutbox ctx db1 .timeslots .update i (.slot updated)
    .ok (updated, db2)

/-- `dbHelpers.deleteTimeSlot`: silent no-op when absent; otherwise
soft-delete (bumping `version` and `updatedAt`) plus one delete event.
The trailing `modify({})` refresh of the source is a data no-op. -/
def deleteTimeSlot (ctx : Ctx) (db : DB) (i : String) : DB :=
  match findById TimeSlot.id db.timeslots i with
  | none => db
  | some existing =>
    let now := db.clock
    let deleted : TimeSlot :=
      { existing with
        deletedAt := some now,
        updatedAt := now,
        version := existing.version + 1 }
    let db1 := { db with timeslots := putById TimeSlot.id db.timeslots deleted }
    let (_, db2) := addToOutbox ctx db1 .timeslots .delete i (.slot deleted)
    db2

/-- Caller-supplied fields of `createTag`. -/
structure TagInput where
  domainId : String
  name : String
  color : Option String := none
  archivedAt : Option Nat := none
  deriving DecidableEq, Repr

/-- `dbHelpers.createTag`: case-insensitive duplicate-name guard within the
domain, then insert plus one create event. -/
def createTag (ctx : Ctx) (db : DB) (tag : TagInput) : Except String (Tag × DB) :=
  let existingTags := db.tags.filter (fun t => t.domainId == tag.domainId)
  let duplicate := existingTags.find?
    (fun t => !(truthyNum t.deletedAt) && t.name.toLower == tag.name.toLower)
  match duplicate with
  | some _ => .error ("Tag \"" ++ tag.name ++ "\" already exists in this domain")
  | none =>
    let now := db.clock
    let (tid, db1) := freshId "tag" db
    let newTag : Tag :=
      { id := tid
        domainId := tag.domainId
        name := tag.name
        color := tag.color
        createdAt := now
        updatedAt := now
        userId := ctx.userId
        clientId := ctx.clientId
        deletedAt := none
        archivedAt := tag.archivedAt }
    let db2 := { db1 with tags := db1.tags ++ [newTag] }
    let (_, db3) := addToOutbox ctx db2 .tags .create newTag.id (.tag newTag)
    .ok (newTag, db3)

/-- `Partial<Tag>` as passed by callers of `updateTag`. -/
structure TagPatch where
  domainId : Option String := none
  name : Option String := none
  color : Option (Option String) := none
  archivedAt : Option (Option Nat) := none
  deriving DecidableEq, Repr

/-- `dbHelpers.updateTag`. -/
def updateTag (ctx : Ctx) (db : DB) (i : String) (u : TagPatch) :
    Except String (Tag × DB) :=
  match findById Tag.id db.tags i with
  | none => .error "Tag not found"
  | some existing =>
    let updated : Tag :=
      { id := existing.id
        domainId := u.domainId.getD existing.domainId
        name := u.name.getD existing.name
        color := u.color.getD existing.color
        createdAt := existing.createdAt
        updatedAt := db.clock
        userId := existing.userId
        clientId := existing.clientId
        deletedAt := existing.deletedAt
        archivedAt := u.archivedAt.getD existing.archivedAt }
    let db1 := { db with tags := putById Tag.id db.tags updated }
    let (_, db2) := addToOutbox ctx db1 .tags .update i (.tag updated)
    .ok (updated, db2)

/-- One cascade step of `deleteTag`: strip the tag id from the slot's list;
delete the slot if nothing remains, update it otherwise. -/
def cascadeOne (ctx : Ctx) (tagId : String) (db : DB) (slot : TimeSlot) :
    Except String DB :=
  let remaining := slot.tagIds.filter (fun tid => tid != tagId)
  if remaining.isEmpty then .ok (deleteTimeSlot ctx db slot.id)
  else (updateTimeSlot ctx db slot.id { tagIds := some remaining }).map (fun r => r.2)

/-- The sequential cascade loop of `deleteTag`. -/
def cascade (ctx : Ctx) (tagId : String) : List TimeSlot → DB → Except String DB
  | [], db => .ok db
  | slot :: rest, db =>
    match cascadeOne ctx tagId db slot with
    | .error e => .error e
    | .ok db1 => cascade ctx tagId rest db1

/-- The non-deleted slots referencing a tag, read before the cascade. -/
def slotsWithTag (db : DB) (i : String) : List TimeSlot :=
  db.timeslots.filter (fun s => !(truthyNum s.deletedAt) && s.tagIds.contains i)

/-- `dbHelpers.deleteTag`: silent no-op when absent; otherwise cascade over
referencing slots, then soft-delete the tag plus one delete event. -/
def deleteTag (ctx : Ctx) (db : DB) (i : String) : Except String DB :=
  match findById Tag.id db.tags i with
  | none => .ok db
  | some existing =>
    match cascade ctx i (slotsWithTag db i) db with
    | .error e => .error e
    | .ok db1 =>
      let deleted : Tag :=
        { existing with deletedAt := some db1.clock, updatedAt := db1.clock }
      let db2 := { db1 with tags := putById Tag.id db1.tags deleted }
      let (_, db3) := addToOutbox ctx db2 .tags .delete i (.tag deleted)
      .ok db3

/-- Caller-supplied fields of `createDomain`. -/
structure DomainInput where
  name : String
  color : String
  colorEnd : Option String := none
  order : Nat
  archivedAt : Option Nat := none
  deriving DecidableEq, Repr

/-- `dbHelpers.createDomain`: case-insensitive duplicate-name guard, then
insert plus one create event. -/
def createDomain (ctx : Ctx) (db : DB) (domain : DomainInput) :
    Except String (DomainEntity × DB) :=
  let duplicate := db.domains.find?
    (fun d => !(truthyNum d.deletedAt) && d.name.toLower == domain.name.toLower)
  match duplicate with
  | some _ => .error ("Domain \"" ++ domain.name ++ "\" already exists")
  | none =>
    let now := db.clock
    let (did, db1) := freshId "domain" db
    let newDomain : DomainEntity :=
      { id := did
        name := domain.name
        color := domain.color
        colorEnd := domain.colorEnd
        order := domain.order
        createdAt := now
        updatedAt := now
        userId := ctx.userId
        clientId := ctx.clientId
        deletedAt := none
        archivedAt := domain.archivedAt }
    let db2 := { db1 with domains := db1.domains ++ [newDomain] }
    let (_, db3) := addToOutbox ctx db2 .domains .create newDomain.id (.domain newDomain)
    .ok (newDomain, db3)

/-- `Partial<DomainEntity>` as passed by callers of `updateDomain`. -/
structure DomainPatch where
  name : Option String := none
  color : Option String := none
  colorEnd : Option (Option String) := none
  order : Option Nat := none
  archivedAt : Option (Option Nat) := none
  deriving DecidableEq, Repr

/-- `dbHelpers.updateDomain`. -/
def updateDomain (ctx : Ctx) (db : DB) (i : String) (u : DomainPatch) :
    Except String (DomainEntity × DB) :=
  match findById DomainEntity.id db.domains i with
  | none => .error "Domain not found"
  | some existing =>
    let updated : DomainEntity :=
      { id := existing.id
        name := u.name.getD existing.name
        color := u.color.getD existing.color
        colorEnd := u.colorEnd.getD existing.colorEnd
        order := u.order.getD existing.order
        createdAt := existing.createdAt
        updatedAt := db.clock
        userId := existing.userId
        clientId := existing.clientId
        deletedAt := existing.deletedAt
        archivedAt := u.archivedAt.getD existing.archivedAt }
    let db1 := { db with domains := putById DomainEntity.id db.domains updated }
    let (_, db2) := addToOutbox ctx db1 .domains .update i (.domain updated)
    .ok (updated, db2)

/-- `dbHelpers.deleteDomain`: silent no-op when absent; referential guard
against live tags; otherwise soft-delete plus one delete event. -/
def deleteDomain (ctx : Ctx) (db : DB) (i : String) : Except String DB :=
  match findById DomainEntity.id db.domains i with
  | none => .ok db
  | some existing =>
    let tags := db.tags.filter (fun t => t.domainId == i)
    let activeTags := tags.filter (fun t => !(truthyNum t.deletedAt))
    if activeTags.isEmpty then
      let deleted : DomainEntity :=
        { existing with deletedAt := some db.clock, updatedAt := db.clock }
      let db1 := { db with domains := putById DomainEntity.id db.domains deleted }
      let (_, db2) := addToOutbox ctx db1 .domains .delete i (.domain deleted)
      .ok db2
    else .error "Cannot delete domain with existing tags. Please delete all tags first."

/-- `dbHelpers.upsertDailyLog`: update the non-deleted log for the date, or
insert a fresh one with the deterministic id `log_<date>`. -/
def upsertDailyLog (ctx : Ctx) (db : DB) (date markdown : String) : DailyLog × DB :=
  let existing := db.dailyLogs.find? (fun l => l.date == date)
  let now := db.clock
  match existing with
  | some ex =>
    if !(truthyNum ex.deletedAt) then
      let updated : DailyLog := { ex with markdown := markdown, updatedAt := now }
      let db1 := { db with dailyLogs := putById DailyLog.id db.dailyLogs updated }
      let (_, db2) := addToOutbox ctx db1 .dailyLogs .update ex.id (.dailyLog updated)
      (updated, db2)
    else
      let newLog : DailyLog :=
        { id := "log_" ++ date, date := date, markdown := markdown,
          createdAt := now, updatedAt := now, userId := ctx.userId,
          clientId := ctx.clientId, deletedAt := none }
      let db1 := { db with dailyLogs := db.dailyLogs ++ [newLog] }
      let (_, db2) := addToOutbox ctx db1 .dailyLogs .create newLog.id (.dailyLog newLog)
      (newLog, db2)
  | none =>
    let newLog : DailyLog :=
      { id := "log_" ++ date, date := date, markdown := markdown,
        createdAt := now, updatedAt := now, userId := ctx.userId,
        clientId := ctx.clientId, deletedAt := none }
    let db1 := { db with dailyLogs := db.dailyLogs ++ [newLog] }
    let (_, db2) := addToOutbox ctx db1 .dailyLogs .create newLog.id (.dailyLog newLog)
    (newLog, db2)

/-! ## Entity mapper and remote row shapes (`syncService`, part_001) -/

/-- Remote `timeslots` row (snake_case columns; ISO timestamps carried as
their epoch-millisecond value). -/
structure SlotRow where
  id : String
  user_id : Option String
  client_id : String
  created_at : Nat
  updated_at : Nat
  deleted_at : Option Nat
  start_time : Nat
  end_time : Nat
  note : Option String
  tag_ids : Option (List String)
  energy : Option Nat
  mood : Option Nat
  version : Nat
  deriving DecidableEq, Repr

/-- Remote `tags` row. -/
structure TagRow where
  id : String
  user_id : Option String
  client_id : String
  created_at : Nat
  updated_at : Nat
  deleted_at : Option Nat
  domain_id : String
  name : String
  color : Option String
  deriving DecidableEq, Repr

/-- Remote `domains` row. -/
structure DomainRow where
  id : String
  user_id : Option String
  client_id : String
  created_at : Nat
  updated_at : Nat
  deleted_at : Option Nat
  name : String
  color : String
  color_end : Option String
  order : Nat
  deriving DecidableEq, Repr

/-- Remote `dailylogs` row. -/
structure LogRow where
  id : String
  user_id : Option String
  client_id : String
  created_at : Nat
  updated_at : Nat
  deleted_at : Option Nat
  date : String
  markdown : String
  deriving DecidableEq, Repr

/-- A remote row, tagged by the entity kind it was fetched for (the
`entity` string argument of the source's mappers). -/
inductive ServerRow where
  | slot : SlotRow → ServerRow
  | tag : TagRow → ServerRow
  | domain : DomainRow → ServerRow
  | log : LogRow → ServerRow
  deriving DecidableEq, Repr

/-- `mapLocalToServer`.  `x || null` coalescing drops falsy values; the
`archivedAt` field of tags and domains has no column and is not written. -/
def mapLocalToServer : Payload → ServerRow
  | .slot s => .slot
      { id := s.id
        user_id := s.userId
        client_id := s.clientId
        created_at := s.createdAt
        updated_at := s.updatedAt
        deleted_at := jsOrNoneNat s.deletedAt
        start_time := s.start
        end_time := s.«end»
        note := jsOrNoneStr s.note
        tag_ids := some s.tagIds
        energy := jsOrNoneNat s.energy
        mood := jsOrNoneNat s.mood
        version := s.version }
  | .tag t => .tag
      { id := t.id
        user_id := t.userId
        client_id := t.clientId
        created_at := t.createdAt
        updated_at := t.updatedAt
        deleted_at := jsOrNoneNat t.deletedAt
        domain_id := t.domainId
        name := t.name
        color := jsOrNoneStr t.color }
  | .domain d => .domain
      { id := d.id
        user_id := d.userId
        client_id := d.clientId
        created_at := d.createdAt
        updated_at := d.updatedAt
        deleted_at := jsOrNoneNat d.deletedAt
        name := d.name
        color := d.color
        color_end := jsOrNoneStr d.colorEnd
        order := d.order }
  | .dailyLog l => .log
      { id := l.id
        user_id := l.userId
        client_id := l.clientId
        created_at := l.createdAt
        updated_at := l.updatedAt
        deleted_at := jsOrNoneNat l.deletedAt
        date := l.date
        markdown := l.markdown }

/-- `mapServerToLocal`.  `server.deleted_at ? .. : undefined` tests the
non-empty ISO string, hence present timestamps stay present; `x ||
undefined` coalescing drops falsy values; `archivedAt` is never restored
(it is absent from the produced object). -/
def mapServerToLocal : ServerRow → Payload
  | .slot r => .slot
      { id := r.id
        userId := r.user_id
        clientId := r.client_id
        createdAt := r.created_at
        updatedAt := r.updated_at
        deletedAt := r.deleted_at
        start := r.start_time
        «end» := r.end_time
        note := jsOrNoneStr r.note
        tagIds := r.tag_ids.getD []
        energy := jsOrNoneNat r.energy
        mood := jsOrNoneNat r.mood
        version := r.version }
  | .tag r => .tag
      { id := r.id
        userId := r.user_id
        clientId := r.client_id
        createdAt := r.created_at
        updatedAt := r.updated_at
        deletedAt := r.deleted_at
        domainId := r.domain_id
        name := r.name
        color := jsOrNoneStr r.color
        archivedAt := none }
  | .domain r => .domain
      { id := r.id
        userId := r.user_id
        clientId := r.client_id
        createdAt := r.created_at
        updatedAt := r.updated_at
        deletedAt := r.deleted_at
        name := r.name
        color := r.color
        colorEnd := jsOrNoneStr r.color_end
        order := r.order
        archivedAt := none }
  | .log r => .dailyLog
      { id := r.id
        userId := r.user_id
        clientId := r.client_id
        createdAt := r.created_at
        updatedAt := r.updated_at
        deletedAt := r.deleted_at
        date := r.date
        markdown := r.markdown }

def rowId : ServerRow → String
  | .slot r => r.id
  | .tag r => r.id
  | .domain r => r.id
  | .log r => r.id

def rowUpdatedAt : ServerRow → Nat
  | .slot r => r.updated_at
  | .tag r => r.updated_at
  | .domain r => r.updated_at
  | .log r => r.updated_at

def rowDeletedAt : ServerRow → Option Nat
  | .slot r => r.deleted_at
  | .tag r => r.deleted_at
  | .domain r => r.deleted_at
  | .log r => r.deleted_at

/-- The table an entity-kind-tagged row belongs to. -/
def rowKind : ServerRow → EntityKind
  | .slot _ => .timeslots
  | .tag _ => .tags
  | .domain _ => .domains
  | .log _ => .dailyLogs

def payloadId : Payload → String
  | .slot s => s.id
  | .tag t => t.id
  | .domain d => d.id
  | .dailyLog l => l.id

def payloadUpdatedAt : Payload → Nat
  | .slot s => s.updatedAt
  | .tag t => t.updatedAt
  | .domain d => d.updatedAt
  | .dailyLog l => l.updatedAt

def payloadDeletedAt : Payload → Option Nat
  | .slot s => s.deletedAt
  | .tag t => t.deletedAt
  | .domain d => d.deletedAt
  | .dailyLog l => l.deletedAt

/-! ## Push engine (`syncPush`, part_001) -/

/-- The authenticated owner, `getCurrentUser()`. -/
structure User where
  id : String
  deriving DecidableEq, Repr

/-- The selection predicate of the push batch query:
`status` in {pending, failed} and `retryCount < MAX_RETRY_COUNT`. -/
def eligibleEvent (e : OutboxEvent) : Bool :=
  (match e.status with
   | .pending => true
   | .failed => true
   | _ => false) && decide (e.retryCount < 5)

/-- Admissible result of the Dexie batch query
`where('status').equals('pending').or('status').equals('failed')
.filter(retryCount < 5).limit(50)`.  Dexie `or()` unions two index scans
and guarantees no result order, so any permutation of the eligible
events, truncated at the batch size of 50, can be returned. -/
def AdmissibleBatch (db : DB) (batch : List OutboxEvent) : Prop :=
  ∃ stream, List.Perm stream (db.outbox.filter eligibleEvent) ∧
    batch = stream.take 50

/-- Dexie `outbox.update(id, changes)`: edit the row with the given key. -/
def outboxUpdate (db : DB) (i : String) (f : OutboxEvent → OutboxEvent) : DB :=
  { db with outbox := db.outbox.map (fun ev => if ev.id == i then f ev else ev) }

/-- One iteration of the `syncPush` loop: mark syncing, attempt the remote
write (`remote e = none` means success), then mark synced or record the
failure.  The failure path stores `event.retryCount + 1` computed from the
batch snapshot, exactly as the source does. -/
def pushOneEvent (remote : OutboxEvent → Option String) (db : DB)
    (e : OutboxEvent) : DB × Bool :=
  let db1 := outboxUpdate db e.id (fun ev => { ev with status := .syncing })
  match remote e with
  | none =>
    (outboxUpdate db1 e.id
      (fun ev => { ev with status := .synced, syncedAt := some db1.clock }), true)
  | some msg =>
    (outboxUpdate db1 e.id
      (fun ev =>
        { ev with
          status := .failed,
          retryCount := e.retryCount + 1,
          lastError := some msg }), false)

/-- The sequential per-event loop of `syncPush`, accumulating the success
and failure counts. -/
def pushEvents (remote : OutboxEvent → Option String) :
    List OutboxEvent → DB → DB × Nat × Nat
  | [], db => (db, 0, 0)
  | e :: rest, db =>
    let r1 := pushOneEvent remote db e
    let r2 := pushEvents remote rest r1.1
    if r1.2 then (r2.1, r2.2.1 + 1, r2.2.2) else (r2.1, r2.2.1, r2.2.2 + 1)

/-- `syncPush`: no-op without an authenticated user; early return (before
any sync-state write) when the batch is empty; otherwise process the batch
sequentially and then `put` a fresh `sync_cursor` record holding only
`lastPushAt` and `userId`. -/
def syncPush (remote : OutboxEvent → Option String) (user : Option User)
    (batch : List OutboxEvent) (db : DB) : DB × Nat × Nat :=
  match user with
  | none => (db, 0, 0)
  | some u =>
    if batch.isEmpty then (db, 0, 0)
    else
      let r := pushEvents remote batch db
      ({ r.1 with
          syncState := some
            { id := "sync_cursor"
              lastPullCursor := none
              lastPullAt := none
              lastPushAt := some r.1.clock
              userId := some u.id } }, r.2.1, r.2.2)

/-! ## Pull engine (`syncPull` / `pullEntityFromSupabase`, part_001) -/

/-- `getExistingEntity`: look the id up in the kind's table. -/
def getExisting (db : DB) (kind : EntityKind) (i : String) : Option Payload :=
  match kind with
  | .timeslots => (findById TimeSlot.id db.timeslots i).map .slot
  | .tags => (findById Tag.id db.tags i).map .tag
  | .domains => (findById DomainEntity.id db.domains i).map .domain
  | .dailyLogs => (findById DailyLog.id db.dailyLogs i).map .dailyLog

/-- `createLocalEntity` / `updateLocalEntity`: a direct `put` into the
entity table, bypassing the outbox. -/
def putLocal (db : DB) : Payload → DB
  | .slot s => { db with timeslots := putById TimeSlot.id db.timeslots s }
  | .tag t => { db with tags := putById Tag.id db.tags t }
  | .domain d => { db with domains := putById DomainEntity.id db.domains d }
  | .dailyLog l => { db with dailyLogs := putById DailyLog.id db.dailyLogs l }

/-- `deleteLocalEntityPhysically`: a hard delete from the entity table. -/
def physDelete (db : DB) (kind : EntityKind) (i : String) : DB :=
  match kind with
  | .timeslots => { db with timeslots := deleteById TimeSlot.id db.timeslots i }
  | .tags => { db with tags := deleteById Tag.id db.tags i }
  | .domains => { db with domains := deleteById DomainEntity.id db.domains i }
  | .dailyLogs => { db with dailyLogs := deleteById DailyLog.id db.dailyLogs i }

/-- In-flight statuses blocking a pull for the same entity id. -/
def inflightStatus : Status → Bool
  | .pending => true
  | .syncing => true
  | .failed => true
  | .synced => false

/-- The pull precondition check: any outbox event for this exact entity id
in an in-flight status. -/
def hasInflight (db : DB) (eid : String) : Bool :=
  db.outbox.any (fun ev => ev.entityId == eid && inflightStatus ev.status)

/-- The body of the per-row loop of `pullEntityFromSupabase`: map the row,
skip when an in-flight outbox event exists, hard-delete on a (truthy)
tombstone, otherwise log a conflict when the local copy is strictly newer
and apply the remote row.  Returns the state and the (pulled, conflicts)
deltas. -/
def processRow (db : DB) (row : ServerRow) : DB × Nat × Nat :=
  let localEntity := mapServerToLocal row
  let eid := payloadId localEntity
  let existing := getExisting db (rowKind row) eid
  if hasInflight db eid then (db, 0, 0)
  else if truthyNum (payloadDeletedAt localEntity) then
    (if existing.isSome then physDelete db (rowKind row) eid else db, 1, 0)
  else
    match existing with
    | some ex =>
      if payloadUpdatedAt ex > rowUpdatedAt row then
        let cid := (freshId "conflict" db).1
        let db1 := (freshId "conflict" db).2
        let crec : ConflictRecord :=
          { id := cid
            entity := rowKind row
            entityId := eid
            localVersion := ex
            serverVersion := localEntity
            conflictedAt := db1.clock }
        let db2 := { db1 with conflicts := db1.conflicts ++ [crec] }
        (putLocal db2 localEntity, 1, 1)
      else (putLocal db localEntity, 1, 0)
    | none => (putLocal db localEntity, 1, 0)

/-- The row loop of `pullEntityFromSupabase` over the fetched rows. -/
def pullEntity (db : DB) : List ServerRow → DB × Nat × Nat
  | [] => (db, 0, 0)
  | row :: rest =>
    let r1 := processRow db row
    let r2 := pullEntity r1.1 rest
    (r2.1, r1.2.1 + r2.2.1, r1.2.2 + r2.2.2)

/-- `syncPull`: no-op without an authenticated user; pull the four entity
kinds in order (the fetched row lists parameterize the remote queries),
then `put` the `sync_cursor` record, advancing `lastPullCursor` to now
only when at least one row was pulled. -/
def syncPull (user : Option User) (rowsSlots rowsTags rowsDomains rowsLogs :
    List ServerRow) (db : DB) : DB × Nat × Nat :=
  match user with
  | none => (db, 0, 0)
  | some u =>
    let st := db.syncState
    let isFirstSync :=
      match st with
      | none => true
      | some s => s.userId ≠ some u.id
    let lastPullCursor := if isFirstSync then none else st.bind (fun s => s.lastPullCursor)
    let r1 := pullEntity db rowsSlots
    let r2 := pullEntity r1.1 rowsTags
    let r3 := pullEntity r2.1 rowsDomains
    let r4 := pullEntity r3.1 rowsLogs
    let pulled := r1.2.1 + r2.2.1 + r3.2.1 + r4.2.1
    let conflictCount := r1.2.2 + r2.2.2 + r3.2.2 + r4.2.2
    let newCursor := if pulled > 0 then some r4.1.clock else lastPullCursor
    ({ r4.1 with
        syncState := some
          { id := "sync_cursor"
            lastPullCursor := newCursor
            lastPullAt := some r4.1.clock
            lastPushAt := none
            userId := some u.id } }, pulled, conflictCount)

/-! ## Generic table lemmas -/

theorem any_key_iff (key : α → String) (t : List α) (e : α) :
    (t.any (fun x => key x == key e)) = true ↔ ∃ x ∈ t, key x = key e := by
  simp [List.any_eq_true]

theorem find?_cons_pos (key : α → String) (i : String) (x : α) (l : List α)
    (h : (key x == i) = true) :
    (x :: l).find? (fun y => key y == i) = some x :=
  List.find?_cons_of_pos l h

theorem find?_cons_neg (key : α → String) (i : String) (x : α) (l : List α)
    (h : ¬ ((key x == i) = true)) :
    (x :: l).find? (fun y => key y == i) = l.find? (fun y => key y == i) :=
  List.find?_cons_of_neg l h

theorem find?_map_replace_ne (key : α → String) (t : List α) (e : α) (i : String)
    (h : key e ≠ i) :
    (t.map (fun x => if key x == key e then e else x)).find?
        (fun x => key x == i) =
      t.find? (fun x => key x == i) := by
  induction t with
  | nil => rfl
  | cons x rest ih =>
    simp only [List.map_cons]
    by_cases hx : (key x == key e) = true
    · have hxe : key x = key e := beq_iff_eq.1 hx
      have h2 : ¬ ((key x == i) = true) := by
        rw [hxe]
        simpa using h
      have h1 : ¬ ((key (if (key x == key e) = true then e else x) == i) = true) := by
        rw [if_pos hx]
        simpa using h
      rw [find?_cons_neg key i _ _ h1, find?_cons_neg key i x rest h2]
      exact ih
    · rw [if_neg hx]
      by_cases hxi : (key x == i) = true
      · rw [find?_cons_pos key i x _ hxi, find?_cons_pos key i x rest hxi]
      · rw [find?_cons_neg key i x _ hxi, find?_cons_neg key i x rest hxi]
        exact ih

theorem findById_putById_ne (key : α → String) (t : List α) (e : α) (i : String)
    (h : key e ≠ i) :
    findById key (putById key t e) i = findById key t i := by
  unfold putById findById
  by_cases ha : t.any (fun x => key x == key e)
  · rw [if_pos ha]
    exact find?_map_replace_ne key t e i h
  · rw [if_neg ha, List.find?_append]
    have h0 : [e].find? (fun x => key x == i) = none := by
      have hne : ¬ ((key e == i) = true) := by simpa using h
      rw [find?_cons_neg key i e [] hne]
      rfl
    rw [h0, Option.or_none]

theorem findById_putById_self (key : α → String) (t : List α) (e : α) :
    findById key (putById key t e) (key e) = some e := by
  unfold putById findById
  by_cases ha : t.any (fun x => key x == key e)
  · rw [if_pos ha]
    rw [List.any_eq_true] at ha
    obtain ⟨w, hw, hwe⟩ := ha
    induction t with
    | nil => simp at hw
    | cons x rest ih =>
      simp only [List.map_cons]
      by_cases hx : (key x == key e) = true
      · rw [if_pos hx]
        exact find?_cons_pos key (key e) e _ (by simp)
      · rw [if_neg hx]
        rw [find?_cons_neg key (key e) x _ hx]
        rcases List.mem_cons.1 hw with rfl | hw2
        · exact absurd hwe (by simpa using hx)
        · exact ih hw2
  · rw [if_neg ha, List.find?_append]
    have h1 : t.find? (fun x => key x == key e) = none := by
      rw [List.find?_eq_none]
      intro x hx hbe
      exact ha (List.any_eq_true.2 ⟨x, hx, hbe⟩)
    rw [h1]
    rw [find?_cons_pos key (key e) e [] (by simp)]
    rfl

theorem putById_map_key (key : α → String) (t : List α) (e : α)
    (h : ∃ x ∈ t, key x = key e) :
    (putById key t e).map key = t.map key := by
  unfold putById
  rw [if_pos ((any_key_iff key t e).2 h)]
  rw [List.map_map]
  refine List.map_congr_left ?_
  intro a _
  show key (if (key a == key e) = true then e else a) = key a
  by_cases hae : (key a == key e) = true
  · rw [if_pos hae]
    exact (beq_iff_eq.1 hae).symm
  · rw [if_neg hae]

theorem findById_deleteById_self (key : α → String) (t : List α) (i : String) :
    findById key (deleteById key t i) i = none := by
  unfold deleteById findById
  rw [List.find?_eq_none]
  intro x hx hbe
  have h2 := (List.mem_filter.1 hx).2
  rw [beq_iff_eq.1 hbe] at h2
  simp at h2

theorem findById_deleteById_ne (key : α → String) (t : List α) (i j : String)
    (h : j ≠ i) :
    findById key (deleteById key t j) i = findById key t i := by
  unfold deleteById findById
  induction t with
  | nil => rfl
  | cons x rest ih =>
    rw [List.filter_cons]
    by_cases hx : (key x != j) = true
    · rw [if_pos hx]
      by_cases hxi : (key x == i) = true
      · rw [find?_cons_pos key i x _ hxi, find?_cons_pos key i x rest hxi]
      · rw [find?_cons_neg key i x _ hxi, find?_cons_neg key i x rest hxi]
        exact ih
    · rw [if_neg hx]
      have hxj : key x = j := by
        have h2 : ¬ (key x ≠ j) := by simpa using hx
        exact not_not.1 h2
      have hxi : ¬ ((key x == i) = true) := by
        rw [hxj]
        simpa using h
      rw [find?_cons_neg key i x rest hxi]
      exact ih

theorem exists_key_iff_mem_map (key : α → String) (t : List α) (i : String) :
    (∃ x ∈ t, key x = i) ↔ i ∈ t.map key := by
  constructor
  · rintro ⟨x, hx, rfl⟩
    exact List.mem_map_of_mem key hx
  · intro hmem
    obtain ⟨x, hx, hxe⟩ := List.mem_map.1 hmem
    exact ⟨x, hx, hxe⟩

/-! ## C10 — absent-id deletes are silent no-ops, absent-id updates fail -/

/-- **C10**: calling `deleteTimeSlot`, `deleteTag`, or `deleteDomain` with an
id that has no stored row returns silently, leaving the database (entity
tables and outbox) entirely unchanged, while the corresponding update
helpers fail with a NotFound error on an absent id. -/
theorem c10_delete_silent (ctx : Ctx) (db : DB) (i : String)
    (hs : findById TimeSlot.id db.timeslots i = none)
    (ht : findById Tag.id db.tags i = none)
    (hd : findById DomainEntity.id db.domains i = none)
    (us : TimeSlotPatch) (ut : TagPatch) (ud : DomainPatch) :
    deleteTimeSlot ctx db i = db ∧
    deleteTag ctx db i = .ok db ∧
    deleteDomain ctx db i = .ok db ∧
    updateTimeSlot ctx db i us = .error "TimeSlot not found" ∧
    updateTag ctx db i ut = .error "Tag not found" ∧
    updateDomain ctx db i ud = .error "Domain not found" := by
  refine ⟨?_, ?_, ?_, ?_, ?_, ?_⟩ <;>
    simp [deleteTimeSlot, deleteTag, deleteDomain, updateTimeSlot, updateTag,
      updateDomain, hs, ht, hd]

/-- Shared identity context for concrete witnesses. -/
def ctxW : Ctx := { userId := some "user_1", clientId := "client_1" }

/-- Empty concrete database. -/
def dbEmpty : DB :=
  { timeslots := [], tags := [], domains := [], dailyLogs := [], outbox := [],
    syncState := none, conflicts := [], clock := 1000, gen := 0 }

theorem c10_witness :
    findById TimeSlot.id dbEmpty.timeslots "missing" = none ∧
    deleteTimeSlot ctxW dbEmpty "missing" = dbEmpty ∧
    deleteTag ctxW dbEmpty "missing" = .ok dbEmpty ∧
    deleteDomain ctxW dbEmpty "missing" = .ok dbEmpty ∧
    updateTimeSlot ctxW dbEmpty "missing" {} = .error "TimeSlot not found" ∧
    updateTag ctxW dbEmpty "missing" {} = .error "Tag not found" ∧
    updateDomain ctxW dbEmpty "missing" {} = .error "Domain not found" := by
  have h := c10_delete_silent ctxW dbEmpty "missing" rfl rfl rfl {} {} {}
  exact ⟨rfl, h.1, h.2.1, h.2.2.1, h.2.2.2.1, h.2.2.2.2.1, h.2.2.2.2.2⟩

/-! ## C8 — mapper round-trip -/

/-- An optional string survives the JS `|| null` / `|| undefined`
coalescing: it is absent or non-empty. -/
def cleanStr (o : Option String) : Prop := jsOrNoneStr o = o

/-- An optional number survives the JS truthiness coalescing: it is absent
or non-zero. -/
def cleanNat (o : Option Nat) : Prop := jsOrNoneNat o = o

/-- The entities whose fields the mapper pair can reproduce: optional
fields absent or truthy, and (for tags and domains) no `archivedAt`, which
has no remote column. -/
def Roundtrippable : Payload → Prop
  | .slot s => cleanStr s.note ∧ cleanNat s.energy ∧ cleanNat s.mood ∧
      cleanNat s.deletedAt
  | .tag t => cleanStr t.color ∧ cleanNat t.deletedAt ∧ t.archivedAt = none
  | .domain d => cleanStr d.colorEnd ∧ cleanNat d.deletedAt ∧ d.archivedAt = none
  | .dailyLog l => cleanNat l.deletedAt

/-- A tag that is archived locally: the mappers drop `archivedAt`. -/
def tagArchived : Tag :=
  { id := "tag_1", domainId := "dom_1", name := "Focus", color := some "#fff",
    createdAt := 10, updatedAt := 20, userId := some "u", clientId := "c",
    deletedAt := none, archivedAt := some 30 }

/-- A tag with an empty-string color: `color || null` erases it. -/
def tagEmptyColor : Tag :=
  { id := "tag_2", domainId := "dom_1", name := "Calm", color := some "",
    createdAt := 10, updatedAt := 20, userId := some "u", clientId := "c",
    deletedAt := none, archivedAt := none }

/-- A slot with `energy = 0`: `energy || null` erases it. -/
def slotZeroEnergy : TimeSlot :=
  { id := "slot_1", start := 100, «end» := 200, note := none, tagIds := ["tag_1"],
    energy := some 0, mood := none, version := 1, createdAt := 10, updatedAt := 20,
    userId := some "u", clientId := "c", deletedAt := none }

/-- **C8 counterexample**: the round trip does not reproduce every field.
An `archivedAt` value is always lost (no remote column), and falsy
optional values (empty string, zero) are coalesced away by the mappers'
`|| null` / `|| undefined`. -/
theorem c8_roundtrip_counterexample :
    mapServerToLocal (mapLocalToServer (.tag tagArchived)) ≠ .tag tagArchived ∧
    mapServerToLocal (mapLocalToServer (.tag tagEmptyColor)) ≠ .tag tagEmptyColor ∧
    mapServerToLocal (mapLocalToServer (.slot slotZeroEnergy)) ≠ .slot slotZeroEnergy := by
  refine ⟨?_, ?_, ?_⟩ <;> decide

/-- **C8 (amended)**: for every entity kind, mapping a local entity to the
remote row shape and back reproduces it in every field, provided its
`archivedAt` is unset and its optional fields are absent or truthy; an
`archivedAt` value is always dropped and falsy optional values are
normalized to absent.  (Timestamps round-trip exactly: local timestamps
are integer milliseconds and the ISO encoding is lossless on them.) -/
theorem c8_roundtrip (p : Payload) (h : Roundtrippable p) :
    mapServerToLocal (mapLocalToServer p) = p := by
  cases p with
  | slot s =>
    obtain ⟨h1, h2, h3, h4⟩ := h
    rw [cleanStr] at h1
    rw [cleanNat] at h2 h3 h4
    cases s
    simp_all [mapLocalToServer, mapServerToLocal]
  | tag t =>
    obtain ⟨h1, h2, h3⟩ := h
    rw [cleanStr] at h1
    rw [cleanNat] at h2
    cases t
    simp_all [mapLocalToServer, mapServerToLocal]
  | domain d =>
    obtain ⟨h1, h2, h3⟩ := h
    rw [cleanStr] at h1
    rw [cleanNat] at h2
    cases d
    simp_all [mapLocalToServer, mapServerToLocal]
  | dailyLog l =>
    rw [Roundtrippable, cleanNat] at h
    cases l
    simp_all [mapLocalToServer, mapServerToLocal]

/-- A representative well-formed tag for the round-trip witness. -/
def tagGood : Tag :=
  { id := "tag_9", domainId := "dom_1", name := "Deep Work", color := some "#abc",
    createdAt := 10, updatedAt := 20, userId := some "u", clientId := "c",
    deletedAt := none, archivedAt := none }

theorem c8_roundtrip_witness :
    Roundtrippable (.tag tagGood) ∧
    mapServerToLocal (mapLocalToServer (.tag tagGood)) = .tag tagGood :=
  ⟨⟨rfl, rfl, rfl⟩, c8_roundtrip (.tag tagGood) ⟨rfl, rfl, rfl⟩⟩

/-! ## Push engine lemmas and claims C4, C6, C7 -/

theorem pushOneEvent_clock (remote : OutboxEvent → Option String) (db : DB)
    (e : OutboxEvent) : (pushOneEvent remote db e).1.clock = db.clock := by
  unfold pushOneEvent outboxUpdate
  cases remote e <;> rfl

theorem pushEvents_clock (remote : OutboxEvent → Option String)
    (l : List OutboxEvent) (db : DB) :
    (pushEvents remote l db).1.clock = db.clock := by
  induction l generalizing db with
  | nil => rfl
  | cons b rest ih =>
    simp only [pushEvents]
    by_cases h : (pushOneEvent remote db b).2 = true <;>
      simp [h, ih, pushOneEvent_clock]

theorem pushEvents_counts (remote : OutboxEvent → Option String)
    (l : List OutboxEvent) (db : DB) :
    (pushEvents remote l db).2.1 + (pushEvents remote l db).2.2 = l.length := by
  induction l generalizing db with
  | nil => rfl
  | cons b rest ih =>
    have h2 := ih (pushOneEvent remote db b).1
    cases hok : (pushOneEvent remote db b).2 <;> simp [pushEvents, hok] <;> omega

theorem pushOneEvent_mem (remote : OutboxEvent → Option String) (db : DB)
    (b e : OutboxEvent) (hne : b.id ≠ e.id) (hmem : e ∈ db.outbox) :
    e ∈ (pushOneEvent remote db b).1.outbox := by
  have hid : (e.id == b.id) = false := beq_eq_false_iff_ne.2 (fun h => hne h.symm)
  unfold pushOneEvent outboxUpdate
  cases remote b <;>
  · simp only [List.map_map]
    refine List.mem_map.2 ⟨e, hmem, ?_⟩
    simp [Function.comp, hid]

theorem pushEvents_mem (remote : OutboxEvent → Option String)
    (l : List OutboxEvent) (db : DB) (e : OutboxEvent)
    (hne : ∀ b ∈ l, b.id ≠ e.id) (hmem : e ∈ db.outbox) :
    e ∈ (pushEvents remote l db).1.outbox := by
  induction l generalizing db with
  | nil => exact hmem
  | cons b rest ih =>
    simp only [pushEvents]
    have hmem1 : e ∈ (pushOneEvent remote db b).1.outbox :=
      pushOneEvent_mem remote db b e (hne b (List.mem_cons_self b rest)) hmem
    have h2 := ih ((pushOneEvent remote db b).1)
      (fun x hx => hne x (List.mem_cons_of_mem b hx)) hmem1
    by_cases h : (pushOneEvent remote db b).2 = true <;>
      simpa [h] using h2

theorem batch_mem_eligible (db : DB) (batch : List OutboxEvent)
    (h : AdmissibleBatch db batch) (e : OutboxEvent) (he : e ∈ batch) :
    e ∈ db.outbox ∧ eligibleEvent e = true := by
  obtain ⟨stream, hperm, rfl⟩ := h
  have h1 : e ∈ stream := List.mem_of_mem_take he
  have h2 : e ∈ db.outbox.filter eligibleEvent := hperm.mem_iff.1 h1
  exact ⟨(List.mem_filter.1 h2).1, (List.mem_filter.1 h2).2⟩

/-- A permanently stuck event: failed with the retry budget exhausted. -/
def evStuck : OutboxEvent :=
  { id := "outbox_1"
    entity := .tags
    operation := .update
    entityId := "tag_1"
    payload := .tag tagGood
    idempotencyKey := "k1"
    userId := some "user_1"
    clientId := "c"
    status := .failed
    retryCount := 5
    lastError := some "boom"
    createdAt := 10
    syncedAt := none }

/-- A sync cursor with both pull fields set. -/
def cursorFull : SyncState :=
  { id := "sync_cursor"
    lastPullCursor := some 7
    lastPullAt := some 5
    lastPushAt := some 1
    userId := some "user_1" }

/-- **C4 counterexample data**: a database whose sync cursor has both pull
fields set, with no eligible outbox event. -/
def dbC4a : DB :=
  { timeslots := [], tags := [], domains := [], dailyLogs := [],
    outbox := [evStuck], syncState := some cursorFull,
    conflicts := [], clock := 1000, gen := 0 }

/-- A pending event ready to be pushed. -/
def evPend : OutboxEvent :=
  { id := "outbox_2"
    entity := .tags
    operation := .update
    entityId := "tag_1"
    payload := .tag tagGood
    idempotencyKey := "k2"
    userId := some "user_1"
    clientId := "c"
    status := .pending
    retryCount := 0
    lastError := none
    createdAt := 20
    syncedAt := none }

/-- **C4 counterexample data**: same cursor, one eligible pending event. -/
def dbC4b : DB :=
  { timeslots := [], tags := [], domains := [], dailyLogs := [],
    outbox := [evPend], syncState := some cursorFull,
    conflicts := [], clock := 1000, gen := 0 }

/-- The always-succeeding remote oracle. -/
def remoteOk : OutboxEvent → Option String := fun _ => none

def userW : User := { id := "user_1" }

/-- **C4 counterexample**: with zero selected events `push()` returns
before touching the SyncCursor, so `lastPushAt` stays at its stale value 1
(the claim requires an update even then); and with one selected event the
wholesale `put` replaces the record, so `lastPullCursor` goes from `some 7`
to absent (the claim requires it unchanged). -/
theorem c4_push_cursor_counterexample :
    AdmissibleBatch dbC4a [] ∧
    (syncPush remoteOk (some userW) [] dbC4a).1.syncState = some cursorFull ∧
    cursorFull.lastPushAt = some 1 ∧
    dbC4a.clock = 1000 ∧
    AdmissibleBatch dbC4b [evPend] ∧
    (dbC4b.syncState.bind (fun s => s.lastPullCursor)) = some 7 ∧
    ((syncPush remoteOk (some userW) [evPend] dbC4b).1.syncState.bind
      (fun s => s.lastPullCursor)) = none := by
  refine ⟨⟨[], by decide, rfl⟩, by decide, rfl, rfl, ⟨[evPend], by decide, rfl⟩,
    by decide, by decide⟩

/-- The record written by a nonempty push batch: only `lastPushAt` and the
owner survive. -/
def pushedCursor (t : Nat) (uid : String) : SyncState :=
  { id := "sync_cursor"
    lastPullCursor := none
    lastPullAt := none
    lastPushAt := some t
    userId := some uid }

/-- **C4 (amended)**: a `push()` call with an authenticated owner and a
nonempty selected batch replaces the SyncCursor wholesale with a record
holding only `lastPushAt` (= now) and the owner id — `lastPullCursor` and
`lastPullAt` are cleared — regardless of per-event outcomes; with an empty
batch, `push()` returns early and the SyncCursor (indeed the whole
database) is untouched. -/
theorem c4_push_cursor (remote : OutboxEvent → Option String) (u : User)
    (db : DB) (batch : List OutboxEvent) (h : AdmissibleBatch db batch) :
    (batch = [] → (syncPush remote (some u) batch db).1 = db) ∧
    (batch ≠ [] → (syncPush remote (some u) batch db).1.syncState =
      some (pushedCursor db.clock u.id)) := by
  constructor
  · rintro rfl
    rfl
  · intro hne
    have hempty : batch.isEmpty = false := by
      cases batch with
      | nil => exact absurd rfl hne
      | cons a l => rfl
    simp only [syncPush, hempty, Bool.false_eq_true, if_false]
    rw [pushEvents_clock]
    rfl

theorem c4_push_cursor_witness :
    AdmissibleBatch dbC4b [evPend] ∧
    ([evPend] ≠ [] → (syncPush remoteOk (some userW) [evPend] dbC4b).1.syncState =
      some (pushedCursor dbC4b.clock userW.id)) := by
  have hadm : AdmissibleBatch dbC4b [evPend] := ⟨[evPend], by decide, rfl⟩
  exact ⟨hadm, (c4_push_cursor remoteOk userW dbC4b [evPend] hadm).2⟩

/-- An old failed-but-retryable event. -/
def evOldFailed : OutboxEvent :=
  { id := "outbox_0"
    entity := .tags
    operation := .update
    entityId := "tag_1"
    payload := .tag tagGood
    idempotencyKey := "k0"
    userId := some "user_1"
    clientId := "c"
    status := .failed
    retryCount := 1
    lastError := some "boom"
    createdAt := 10
    syncedAt := none }

/-- **C6 counterexample data**: an old failed event and a newer pending one. -/
def dbC6 : DB :=
  { timeslots := [], tags := [], domains := [], dailyLogs := [],
    outbox := [evOldFailed, evPend], syncState := none, conflicts := [],
    clock := 1000, gen := 0 }

/-- **C6 counterexample**: the Dexie `or()` union query does not sort, so a
batch that is *not* in creation order is an admissible selection — here the
newer pending event precedes the older failed one, falsifying "ordered
oldest first, processed in creation order". -/
theorem c6_batch_order_counterexample :
    AdmissibleBatch dbC6 [evPend, evOldFailed] ∧
    ¬ List.Sorted (fun a b : OutboxEvent => a.createdAt ≤ b.createdAt)
      [evPend, evOldFailed] := by
  refine ⟨⟨[evPend, evOldFailed], by decide, rfl⟩, ?_⟩
  intro h
  have := List.rel_of_sorted_cons h evOldFailed (by simp)
  simp [evPend, evOldFailed] at this

/-- **C6 (amended)**: each `push()` batch selects at most 50 outbox events,
all drawn from the outbox with `status` pending or failed and `retryCount`
strictly below 5, and processes each selected event exactly once,
sequentially in batch order; the selection order is *not* guaranteed to be
oldest-first (the underlying union query is unordered). -/
theorem c6_batch_selection (remote : OutboxEvent → Option String) (u : User)
    (db : DB) (batch : List OutboxEvent) (h : AdmissibleBatch db batch) :
    batch.length ≤ 50 ∧
    (∀ e ∈ batch, e ∈ db.outbox ∧ eligibleEvent e = true) ∧
    (syncPush remote (some u) batch db).2.1 +
      (syncPush remote (some u) batch db).2.2 = batch.length := by
  obtain ⟨stream, hperm, hbatch⟩ := h
  refine ⟨?_, ?_, ?_⟩
  · rw [hbatch]
    simp [List.length_take]
  · exact fun e he => batch_mem_eligible db batch ⟨stream, hperm, hbatch⟩ e he
  · by_cases hb : batch.isEmpty = true
    · have : batch = [] := by
        cases batch with
        | nil => rfl
        | cons a l => exact absurd hb (by simp)
      subst this
      rfl
    · have hempty : batch.isEmpty = false := by
        cases h2 : batch.isEmpty with
        | true => exact absurd h2 hb
        | false => rfl
      simp only [syncPush, hempty, Bool.false_eq_true, if_false]
      exact pushEvents_counts remote batch db

theorem c6_batch_selection_witness :
    AdmissibleBatch dbC6 [evOldFailed, evPend] ∧
    [evOldFailed, evPend].length ≤ 50 ∧
    (∀ e ∈ [evOldFailed, evPend], e ∈ dbC6.outbox ∧ eligibleEvent e = true) ∧
    (syncPush remoteOk (some userW) [evOldFailed, evPend] dbC6).2.1 +
      (syncPush remoteOk (some userW) [evOldFailed, evPend] dbC6).2.2 = 2 := by
  have hadm : AdmissibleBatch dbC6 [evOldFailed, evPend] :=
    ⟨[evOldFailed, evPend], by decide, rfl⟩
  have h := c6_batch_selection remoteOk userW dbC6 [evOldFailed, evPend] hadm
  exact ⟨hadm, h.1, h.2.1, h.2.2⟩

/-- **C7**: an event whose push has failed for the fifth time is stored
with `status` failed, `retryCount` 5 and the error message (first
conjunct); such an event is never part of any admissible later batch
(second conjunct), and `push()` leaves it untouched in the outbox, its
failed status and `lastError` persisting (third conjunct). -/
theorem c7_retry_cap (remote : OutboxEvent → Option String) (u : User)
    (db : DB) (batch : List OutboxEvent) (e : OutboxEvent)
    (hmem : e ∈ db.outbox) (hst : e.status = .failed) (hrc : e.retryCount = 5)
    (hadm : AdmissibleBatch db batch)
    (hnd : (db.outbox.map (fun ev => ev.id)).Nodup) :
    (∀ (db2 : DB) (e2 : OutboxEvent) (msg : String), e2 ∈ db2.outbox →
      e2.retryCount = 4 → remote e2 = some msg →
      { e2 with status := .failed, retryCount := 5, lastError := some msg } ∈
        (pushOneEvent remote db2 e2).1.outbox) ∧
    e ∉ batch ∧
    e ∈ (syncPush remote (some u) batch db).1.outbox := by
  have helig : eligibleEvent e = false := by
    unfold eligibleEvent
    rw [hst, hrc]
    rfl
  have hnotb : e ∉ batch := by
    intro hb
    have h2 := (batch_mem_eligible db batch hadm e hb).2
    rw [helig] at h2
    exact Bool.false_ne_true h2
  refine ⟨?_, hnotb, ?_⟩
  · intro db2 e2 msg hmem2 hrc2 hrem
    unfold pushOneEvent
    rw [hrem]
    unfold outboxUpdate
    simp only [List.map_map]
    refine List.mem_map.2 ⟨e2, hmem2, ?_⟩
    simp only [Function.comp]
    rw [if_pos (by simp), if_pos (by simp)]
    rw [hrc2]
  · have hne : ∀ b ∈ batch, b.id ≠ e.id := by
      intro b hb hbe
      have hbm := batch_mem_eligible db batch hadm b hb
      have : b = e := List.inj_on_of_nodup_map hnd hbm.1 hmem hbe
      rw [this] at hbm
      rw [helig] at hbm
      exact Bool.false_ne_true hbm.2
    cases hb : batch.isEmpty with
    | true => simp only [syncPush, hb, if_true]; exact hmem
    | false =>
      simp only [syncPush, hb, Bool.false_eq_true, if_false]
      exact pushEvents_mem remote batch db e hne hmem

/-- A database holding both the stuck event and a pending one. -/
def dbC7 : DB :=
  { timeslots := [], tags := [], domains := [], dailyLogs := [],
    outbox := [evStuck, evPend], syncState := none, conflicts := [],
    clock := 1000, gen := 0 }

theorem c7_retry_cap_witness :
    evStuck ∈ dbC7.outbox ∧
    evStuck.status = .failed ∧
    evStuck.retryCount = 5 ∧
    AdmissibleBatch dbC7 [evPend] ∧
    (dbC7.outbox.map (fun ev => ev.id)).Nodup ∧
    (evStuck ∉ [evPend] ∧
      evStuck ∈ (syncPush remoteOk (some userW) [evPend] dbC7).1.outbox) := by
  have hadm : AdmissibleBatch dbC7 [evPend] := ⟨[evPend], by decide, rfl⟩
  have h := c7_retry_cap remoteOk userW dbC7 [evPend] evStuck
    (by decide) (by decide) (by decide) hadm (by decide)
  exact ⟨by decide, by decide, by decide, hadm, by decide, h.2.1, h.2.2⟩

/-! ## Pull engine lemmas -/

/-- The table a payload constructor belongs to. -/
def payloadKind : Payload → EntityKind
  | .slot _ => .timeslots
  | .tag _ => .tags
  | .domain _ => .domains
  | .dailyLog _ => .dailyLogs

theorem payloadId_mapServerToLocal (row : ServerRow) :
    payloadId (mapServerToLocal row) = rowId row := by
  cases row <;> rfl

theorem payloadDeletedAt_mapServerToLocal (row : ServerRow) :
    payloadDeletedAt (mapServerToLocal row) = rowDeletedAt row := by
  cases row <;> rfl

theorem payloadKind_mapServerToLocal (row : ServerRow) :
    payloadKind (mapServerToLocal row) = rowKind row := by
  cases row <;> rfl

theorem putLocal_outbox (db : DB) (p : Payload) :
    (putLocal db p).outbox = db.outbox := by
  cases p <;> rfl

theorem putLocal_conflicts (db : DB) (p : Payload) :
    (putLocal db p).conflicts = db.conflicts := by
  cases p <;> rfl

theorem physDelete_outbox (db : DB) (k : EntityKind) (i : String) :
    (physDelete db k i).outbox = db.outbox := by
  cases k <;> rfl

theorem physDelete_conflicts (db : DB) (k : EntityKind) (i : String) :
    (physDelete db k i).conflicts = db.conflicts := by
  cases k <;> rfl

theorem getExisting_putLocal_ne (db : DB) (p : Payload) (k : EntityKind)
    (i : String) (h : payloadId p ≠ i) :
    getExisting (putLocal db p) k i = getExisting db k i := by
  cases p <;> cases k <;>
    simp only [putLocal, getExisting] <;>
    first
      | rfl
      | exact congrArg (Option.map _) (findById_putById_ne _ _ _ _ h)

theorem getExisting_putLocal_self (db : DB) (p : Payload) :
    getExisting (putLocal db p) (payloadKind p) (payloadId p) = some p := by
  cases p <;>
    simp only [putLocal, getExisting, payloadKind, payloadId] <;>
    rw [findById_putById_self] <;> rfl

theorem getExisting_physDelete_self (db : DB) (k : EntityKind) (i : String) :
    getExisting (physDelete db k i) k i = none := by
  cases k <;>
    simp only [physDelete, getExisting] <;>
    rw [findById_deleteById_self] <;> rfl

theorem getExisting_physDelete_ne (db : DB) (k k2 : EntityKind) (j i : String)
    (h : j ≠ i) :
    getExisting (physDelete db k j) k2 i = getExisting db k2 i := by
  cases k <;> cases k2 <;>
    simp only [physDelete, getExisting] <;>
    first
      | rfl
      | exact congrArg (Option.map _) (findById_deleteById_ne _ _ _ _ h)

theorem getExisting_conflicts_gen (db : DB) (cs : List ConflictRecord) (g : Nat)
    (k : EntityKind) (i : String) :
    getExisting { db with conflicts := cs, gen := g } k i = getExisting db k i := by
  cases k <;> rfl

/-- `hasInflight` depends only on the outbox. -/
theorem hasInflight_congr (db1 db2 : DB) (i : String)
    (h : db1.outbox = db2.outbox) : hasInflight db1 i = hasInflight db2 i := by
  unfold hasInflight
  rw [h]

theorem processRow_outbox (db : DB) (row : ServerRow) :
    (processRow db row).1.outbox = db.outbox := by
  simp only [processRow]
  split
  · rfl
  · split
    · split <;> simp [physDelete_outbox]
    · split
      · split
        · simp [putLocal_outbox, freshId]
        · simp [putLocal_outbox]
      · simp [putLocal_outbox]

theorem processRow_getExisting_ne (db : DB) (row : ServerRow) (i : String)
    (h : rowId row ≠ i) (k : EntityKind) :
    getExisting (processRow db row).1 k i = getExisting db k i := by
  have hpid := payloadId_mapServerToLocal row
  simp only [processRow, hpid]
  split
  · rfl
  · split
    · split
      · exact getExisting_physDelete_ne db (rowKind row) k (rowId row) i h
      · rfl
    · split
      · split
        · rw [getExisting_putLocal_ne _ _ _ _ (by rw [hpid]; exact h)]
          exact getExisting_conflicts_gen _ _ _ _ _
        · exact getExisting_putLocal_ne _ _ _ _ (by rw [hpid]; exact h)
      · exact getExisting_putLocal_ne _ _ _ _ (by rw [hpid]; exact h)

theorem processRow_conflicts_filter_ne (db : DB) (row : ServerRow) (i : String)
    (h : rowId row ≠ i) :
    ((processRow db row).1.conflicts.filter (fun c => c.entityId == i)) =
      db.conflicts.filter (fun c => c.entityId == i) := by
  have hpid := payloadId_mapServerToLocal row
  have hne : ((rowId row : String) == i) = false := beq_eq_false_iff_ne.2 h
  simp only [processRow, hpid]
  split
  · rfl
  · split
    · split
      · rw [physDelete_conflicts]
      · rfl
    · split
      · split
        · rw [putLocal_conflicts]
          rw [List.filter_append]
          have hg : (freshId "conflict" db).2.conflicts = db.conflicts := rfl
          rw [hg]
          simp [hne]
        · rw [putLocal_conflicts]
      · rw [putLocal_conflicts]

/-- Skipped row: with an in-flight event for the row's id, `processRow`
leaves the database untouched. -/
theorem processRow_skip (db : DB) (row : ServerRow)
    (hin : hasInflight db (rowId row) = true) :
    processRow db row = (db, 0, 0) := by
  have hpid := payloadId_mapServerToLocal row
  simp [processRow, hpid, hin]

theorem processRow_inflight_frame (db : DB) (row : ServerRow) (eid : String)
    (hin : hasInflight db eid = true) :
    (processRow db row).1.outbox = db.outbox ∧
    (∀ k, getExisting (processRow db row).1 k eid = getExisting db k eid) ∧
    ((processRow db row).1.conflicts.filter (fun c => c.entityId == eid)) =
      db.conflicts.filter (fun c => c.entityId == eid) := by
  by_cases h : rowId row = eid
  · rw [processRow_skip db row (h ▸ hin)]
    exact ⟨rfl, fun k => rfl, rfl⟩
  · exact ⟨processRow_outbox db row,
      processRow_getExisting_ne db row eid h,
      processRow_conflicts_filter_ne db row eid h⟩

theorem pullEntity_outbox (rows : List ServerRow) (db : DB) :
    (pullEntity db rows).1.outbox = db.outbox := by
  induction rows generalizing db with
  | nil => rfl
  | cons row rest ih =>
    simp only [pullEntity]
    exact (ih (processRow db row).1).trans (processRow_outbox db row)

theorem pullEntity_inflight_frame (rows : List ServerRow) (db : DB)
    (eid : String) (hin : hasInflight db eid = true) :
    (∀ k, getExisting (pullEntity db rows).1 k eid = getExisting db k eid) ∧
    ((pullEntity db rows).1.conflicts.filter (fun c => c.entityId == eid)) =
      db.conflicts.filter (fun c => c.entityId == eid) := by
  induction rows generalizing db with
  | nil => exact ⟨fun k => rfl, rfl⟩
  | cons row rest ih =>
    simp only [pullEntity]
    have h1 := processRow_inflight_frame db row eid hin
    have hin1 : hasInflight (processRow db row).1 eid = true :=
      (hasInflight_congr _ db eid h1.1).trans hin
    have h2 := ih (processRow db row).1 hin1
    exact ⟨fun k => (h2.1 k).trans (h1.2.1 k), h2.2.trans h1.2.2⟩

theorem getExisting_syncState (db : DB) (s : Option SyncState) (k : EntityKind)
    (i : String) :
    getExisting { db with syncState := s } k i = getExisting db k i := by
  cases k <;> rfl

/-- **C9**: a pull cycle never creates, removes, or modifies any
OutboxEvent: the outbox after `syncPull` is exactly the outbox before,
for any fetched rows — remote rows are applied through direct store writes
that bypass the outbox. -/
theorem c9_pull_outbox_frame (user : Option User)
    (a b c d : List ServerRow) (db : DB) :
    (syncPull user a b c d db).1.outbox = db.outbox := by
  cases user with
  | none => rfl
  | some u =>
    simp only [syncPull]
    rw [pullEntity_outbox, pullEntity_outbox, pullEntity_outbox, pullEntity_outbox]

/-- **C2**: if any outbox event for entity id `eid` is in a pending,
syncing, or failed status, then a whole pull cycle leaves the local copy
of that entity (in every table, including its absence) unmodified and logs
no conflict for it — every fetched row for that id is skipped. -/
theorem c2_pull_precedence (u : User) (a b c d : List ServerRow) (db : DB)
    (eid : String) (ev : OutboxEvent) (hmem : ev ∈ db.outbox)
    (hid : ev.entityId = eid) (hst : inflightStatus ev.status = true) :
    (∀ k, getExisting (syncPull (some u) a b c d db).1 k eid =
      getExisting db k eid) ∧
    ((syncPull (some u) a b c d db).1.conflicts.filter
      (fun c => c.entityId == eid)) =
      db.conflicts.filter (fun c => c.entityId == eid) := by
  have hin : hasInflight db eid = true :=
    List.any_eq_true.2 ⟨ev, hmem, by simp [hid, hst]⟩
  have f1 := pullEntity_inflight_frame a db eid hin
  have ho1 := pullEntity_outbox a db
  have hin1 : hasInflight (pullEntity db a).1 eid = true :=
    (hasInflight_congr _ db eid ho1).trans hin
  have f2 := pullEntity_inflight_frame b (pullEntity db a).1 eid hin1
  have ho2 := pullEntity_outbox b (pullEntity db a).1
  have hin2 : hasInflight (pullEntity (pullEntity db a).1 b).1 eid = true :=
    (hasInflight_congr _ _ eid ho2).trans hin1
  have f3 := pullEntity_inflight_frame c (pullEntity (pullEntity db a).1 b).1 eid hin2
  have ho3 := pullEntity_outbox c (pullEntity (pullEntity db a).1 b).1
  have hin3 : hasInflight (pullEntity (pullEntity (pullEntity db a).1 b).1 c).1
      eid = true :=
    (hasInflight_congr _ _ eid ho3).trans hin2
  have f4 := pullEntity_inflight_frame d
    (pullEntity (pullEntity (pullEntity db a).1 b).1 c).1 eid hin3
  constructor
  · intro k
    simp only [syncPull]
    rw [getExisting_syncState]
    exact (((f4.1 k).trans (f3.1 k)).trans (f2.1 k)).trans (f1.1 k)
  · simp only [syncPull]
    exact ((f4.2.trans f3.2).trans f2.2).trans f1.2

/-- A tag stored locally (modified at time 50). -/
def tagLocal : Tag :=
  { id := "tag_1"
    domainId := "dom_1"
    name := "Focus"
    color := some "#111"
    createdAt := 10
    updatedAt := 50
    userId := some "user_1"
    clientId := "c"
    deletedAt := none
    archivedAt := none }

/-- A remote row for the same tag id, newer than the local copy. -/
def rowTagRemote : ServerRow := .tag
  { id := "tag_1"
    user_id := some "user_1"
    client_id := "c"
    created_at := 10
    updated_at := 99
    deleted_at := none
    domain_id := "dom_1"
    name := "Focus"
    color := some "#222" }

/-- Database with the local tag and a pending outbox event for it
(`evPend.entityId = "tag_1"`). -/
def dbC2 : DB :=
  { timeslots := [], tags := [tagLocal], domains := [], dailyLogs := [],
    outbox := [evPend], syncState := none, conflicts := [], clock := 1000,
    gen := 0 }

theorem c2_pull_precedence_witness :
    evPend ∈ dbC2.outbox ∧
    evPend.entityId = "tag_1" ∧
    inflightStatus evPend.status = true ∧
    (∀ k, getExisting (syncPull (some userW) [] [rowTagRemote] [] [] dbC2).1 k
        "tag_1" = getExisting dbC2 k "tag_1") ∧
    ((syncPull (some userW) [] [rowTagRemote] [] [] dbC2).1.conflicts.filter
      (fun c => c.entityId == "tag_1")) =
      dbC2.conflicts.filter (fun c => c.entityId == "tag_1") := by
  have h := c2_pull_precedence userW [] [rowTagRemote] [] [] dbC2 "tag_1" evPend
    (by decide) (by decide) (by decide)
  exact ⟨by decide, by decide, by decide, h.1, h.2⟩

/-! ## C3 — conflict logging on pull -/

/-- **C3**: for a pulled remote row that is not a tombstone and has no
in-flight outbox event, when a local copy exists and is strictly newer
than the remote row, exactly one ConflictRecord is appended carrying both
full snapshots and the local copy is then overwritten with the (mapped)
remote row, counting one conflict; when the local copy is not strictly
newer, the remote row is applied with no ConflictRecord appended. -/
theorem c3_conflict_logging (db : DB) (row : ServerRow) (ex : Payload)
    (hnin : hasInflight db (rowId row) = false)
    (hnt : truthyNum (rowDeletedAt row) = false)
    (hex : getExisting db (rowKind row) (rowId row) = some ex) :
    (payloadUpdatedAt ex > rowUpdatedAt row →
      ∃ crec : ConflictRecord,
        (processRow db row).1.conflicts = db.conflicts ++ [crec] ∧
        crec.entity = rowKind row ∧
        crec.entityId = rowId row ∧
        crec.localVersion = ex ∧
        crec.serverVersion = mapServerToLocal row ∧
        getExisting (processRow db row).1 (rowKind row) (rowId row) =
          some (mapServerToLocal row) ∧
        (processRow db row).2.2 = 1) ∧
    (¬ payloadUpdatedAt ex > rowUpdatedAt row →
      (processRow db row).1.conflicts = db.conflicts ∧
      getExisting (processRow db row).1 (rowKind row) (rowId row) =
        some (mapServerToLocal row) ∧
      (processRow db row).2.2 = 0) := by
  have hpid := payloadId_mapServerToLocal row
  have hpd := payloadDeletedAt_mapServerToLocal row
  have hpk := payloadKind_mapServerToLocal row
  constructor
  · intro hgt
    have hred : processRow db row =
        (putLocal
          { (freshId "conflict" db).2 with
            conflicts := (freshId "conflict" db).2.conflicts ++
              [{ id := (freshId "conflict" db).1
                 entity := rowKind row
                 entityId := rowId row
                 localVersion := ex
                 serverVersion := mapServerToLocal row
                 conflictedAt := (freshId "conflict" db).2.clock }] }
          (mapServerToLocal row), 1, 1) := by
      simp only [processRow, hpid, hpd, hnin, hnt, hex, Bool.false_eq_true,
        if_false]
      rw [if_pos hgt]
    rw [hred]
    refine ⟨{ id := (freshId "conflict" db).1
              entity := rowKind row
              entityId := rowId row
              localVersion := ex
              serverVersion := mapServerToLocal row
              conflictedAt := (freshId "conflict" db).2.clock },
      ?_, rfl, rfl, rfl, rfl, ?_, rfl⟩
    · rw [putLocal_conflicts]
      rfl
    · rw [show (rowKind row) = payloadKind (mapServerToLocal row) from hpk.symm,
        show (rowId row) = payloadId (mapServerToLocal row) from hpid.symm]
      exact getExisting_putLocal_self _ _
  · intro hle
    have hred : processRow db row = (putLocal db (mapServerToLocal row), 1, 0) := by
      simp only [processRow, hpid, hpd, hnin, hnt, hex, Bool.false_eq_true,
        if_false]
      rw [if_neg hle]
    rw [hred]
    refine ⟨?_, ?_, rfl⟩
    · rw [putLocal_conflicts]
    · rw [show (rowKind row) = payloadKind (mapServerToLocal row) from hpk.symm,
        show (rowId row) = payloadId (mapServerToLocal row) from hpid.symm]
      exact getExisting_putLocal_self _ _

/-- A local tag strictly newer than the remote row (`updatedAt` 150 > 99). -/
def tagNewer : Tag :=
  { id := "tag_1"
    domainId := "dom_1"
    name := "Focus"
    color := some "#333"
    createdAt := 10
    updatedAt := 150
    userId := some "user_1"
    clientId := "c"
    deletedAt := none
    archivedAt := none }

/-- Database with the newer local tag and an empty outbox. -/
def dbC3 : DB :=
  { timeslots := [], tags := [tagNewer], domains := [], dailyLogs := [],
    outbox := [], syncState := none, conflicts := [], clock := 1000, gen := 0 }

theorem c3_conflict_logging_witness :
    hasInflight dbC3 (rowId rowTagRemote) = false ∧
    truthyNum (rowDeletedAt rowTagRemote) = false ∧
    getExisting dbC3 (rowKind rowTagRemote) (rowId rowTagRemote) =
      some (.tag tagNewer) ∧
    payloadUpdatedAt (.tag tagNewer) > rowUpdatedAt rowTagRemote ∧
    (∃ crec : ConflictRecord,
      (processRow dbC3 rowTagRemote).1.conflicts = dbC3.conflicts ++ [crec] ∧
      crec.entity = rowKind rowTagRemote ∧
      crec.entityId = rowId rowTagRemote ∧
      crec.localVersion = .tag tagNewer ∧
      crec.serverVersion = mapServerToLocal rowTagRemote ∧
      getExisting (processRow dbC3 rowTagRemote).1 (rowKind rowTagRemote)
        (rowId rowTagRemote) = some (mapServerToLocal rowTagRemote) ∧
      (processRow dbC3 rowTagRemote).2.2 = 1) := by
  have h := c3_conflict_logging dbC3 rowTagRemote (.tag tagNewer)
    (by decide) (by decide) (by decide)
  exact ⟨by decide, by decide, by decide, by decide, h.1 (by decide)⟩

/-! ## C5 — tombstone handling on pull -/

theorem pullEntity_getExisting_ne (rows : List ServerRow) (db : DB)
    (i : String) (k : EntityKind) (h : ∀ r ∈ rows, rowId r ≠ i) :
    getExisting (pullEntity db rows).1 k i = getExisting db k i := by
  revert h
  induction rows generalizing db with
  | nil => intro h; rfl
  | cons row rest ih =>
    intro h
    simp only [pullEntity]
    have h1 := processRow_getExisting_ne db row i
      (h row (List.mem_cons_self row rest)) k
    have h2 := ih (processRow db row).1
      (fun r hr => h r (List.mem_cons_of_mem row hr))
    exact h2.trans h1

theorem processRow_tombstone (db : DB) (row : ServerRow)
    (hnin : hasInflight db (rowId row) = false)
    (ht : truthyNum (rowDeletedAt row) = true) :
    getExisting (processRow db row).1 (rowKind row) (rowId row) = none := by
  have hpid := payloadId_mapServerToLocal row
  have hpd := payloadDeletedAt_mapServerToLocal row
  have hred : processRow db row =
      ((if (getExisting db (rowKind row) (rowId row)).isSome then
          physDelete db (rowKind row) (rowId row) else db), 1, 0) := by
    simp only [processRow, hpid, hpd, hnin, ht, Bool.false_eq_true, if_false,
      if_true]
  rw [hred]
  by_cases hex : (getExisting db (rowKind row) (rowId row)).isSome
  · simp only [hex, if_true]
    exact getExisting_physDelete_self db (rowKind row) (rowId row)
  · simp only [hex, Bool.false_eq_true, if_false]
    exact Option.not_isSome_iff_eq_none.1 hex

/-- **C5 (amended)**: for every fetched remote row whose `deletedAt` is set
(truthy) and whose entity id has *no* in-flight outbox event, the local row
with that id is physically absent after the pull, regardless of the prior
state of the entity table; a row blocked by an in-flight event is skipped
and the local copy survives. -/
theorem c5_tombstone (rows : List ServerRow) (db : DB) (r : ServerRow)
    (hmem : r ∈ rows) (hnd : (rows.map rowId).Nodup)
    (hnin : hasInflight db (rowId r) = false)
    (ht : truthyNum (rowDeletedAt r) = true) :
    getExisting (pullEntity db rows).1 (rowKind r) (rowId r) = none := by
  revert hmem hnd hnin
  induction rows generalizing db with
  | nil =>
    intro hmem _ _
    exact absurd hmem (List.not_mem_nil r)
  | cons row rest ih =>
    intro hmem hnd hnin
    simp only [pullEntity]
    simp only [List.map_cons, List.nodup_cons] at hnd
    rcases List.mem_cons.1 hmem with rfl | hmem2
    · have h1 := processRow_tombstone db r hnin ht
      have hne : ∀ r2 ∈ rest, rowId r2 ≠ rowId r := by
        intro r2 hr2 he
        exact hnd.1 (he ▸ List.mem_map_of_mem rowId hr2)
      exact (pullEntity_getExisting_ne rest (processRow db r).1 (rowId r)
        (rowKind r) hne).trans h1
    · have hnin1 : hasInflight (processRow db row).1 (rowId r) = false :=
        (hasInflight_congr _ db _ (processRow_outbox db row)).trans hnin
      exact ih (processRow db row).1 hmem2 hnd.2 hnin1

/-- A slot stored locally. -/
def slotLocal : TimeSlot :=
  { id := "slot_1"
    start := 100
    «end» := 200
    note := none
    tagIds := ["tag_1"]
    energy := none
    mood := none
    version := 2
    createdAt := 10
    updatedAt := 50
    userId := some "user_1"
    clientId := "c"
    deletedAt := none }

/-- A remote tombstone row for that slot. -/
def rowTomb : ServerRow := .slot
  { id := "slot_1"
    user_id := some "user_1"
    client_id := "c"
    created_at := 10
    updated_at := 900
    deleted_at := some 900
    start_time := 100
    end_time := 200
    note := none
    tag_ids := some ["tag_1"]
    energy := none
    mood := none
    version := 2 }

/-- A pending outbox event for the slot. -/
def evPendSlot : OutboxEvent :=
  { id := "outbox_3"
    entity := .timeslots
    operation := .update
    entityId := "slot_1"
    payload := .slot slotLocal
    idempotencyKey := "k3"
    userId := some "user_1"
    clientId := "c"
    status := .pending
    retryCount := 0
    lastError := none
    createdAt := 30
    syncedAt := none }

/-- The slot with an in-flight local edit pending. -/
def dbC5 : DB :=
  { timeslots := [slotLocal], tags := [], domains := [], dailyLogs := [],
    outbox := [evPendSlot], syncState := none, conflicts := [], clock := 1000,
    gen := 0 }

/-- **C5 counterexample**: a tombstone row (`deleted_at` set) pulled while
a pending outbox event exists for the same entity id is skipped — the
local row is still present after the whole pull, contradicting "physically
absent afterward, regardless of prior local state". -/
theorem c5_tombstone_counterexample :
    rowDeletedAt rowTomb = some 900 ∧
    getExisting (syncPull (some userW) [rowTomb] [] [] [] dbC5).1 .timeslots
      "slot_1" = some (.slot slotLocal) := by
  exact ⟨rfl, by decide⟩

/-- The same database without the in-flight event. -/
def dbC5free : DB :=
  { timeslots := [slotLocal], tags := [], domains := [], dailyLogs := [],
    outbox := [], syncState := none, conflicts := [], clock := 1000, gen := 0 }

theorem c5_tombstone_witness :
    rowTomb ∈ [rowTomb] ∧
    ([rowTomb].map rowId).Nodup ∧
    hasInflight dbC5free (rowId rowTomb) = false ∧
    truthyNum (rowDeletedAt rowTomb) = true ∧
    getExisting (pullEntity dbC5free [rowTomb]).1 (rowKind rowTomb)
      (rowId rowTomb) = none := by
  have h := c5_tombstone [rowTomb] dbC5free rowTomb
    (List.mem_cons_self rowTomb []) (by decide) (by decide) (by decide)
  exact ⟨List.mem_cons_self rowTomb [], by decide, by decide, by decide, h⟩

/-! ## C1 — outbox completeness lemmas -/

theorem createTimeSlot_spec (ctx : Ctx) (db : DB) (inp : TimeSlotInput) :
    ∃ ev, (createTimeSlot ctx db inp).2.outbox = db.outbox ++ [ev] ∧
      ev.entity = .timeslots ∧ ev.operation = .create ∧
      ev.entityId = (createTimeSlot ctx db inp).1.id :=
  ⟨_, rfl, rfl, rfl, rfl⟩

theorem updateTimeSlot_spec (ctx : Ctx) (db : DB) (i : String)
    (u : TimeSlotPatch) (ex : TimeSlot)
    (hex : findById TimeSlot.id db.timeslots i = some ex) :
    ∃ ev r, updateTimeSlot ctx db i u = .ok r ∧
      r.2.outbox = db.outbox ++ [ev] ∧
      ev.entity = .timeslots ∧ ev.operation = .update ∧ ev.entityId = i ∧
      r.2.tags = db.tags ∧ r.2.clock = db.clock ∧
      r.2.timeslots.map TimeSlot.id = db.timeslots.map TimeSlot.id := by
  have hid : ex.id = i := by
    have := List.find?_some hex
    simpa using this
  have hmem : ex ∈ db.timeslots := List.mem_of_find?_eq_some hex
  unfold updateTimeSlot
  rw [hex]
  refine ⟨_, _, rfl, rfl, rfl, rfl, rfl, rfl, rfl, ?_⟩
  exact putById_map_key TimeSlot.id db.timeslots _ ⟨ex, hmem, hid.symm ▸ rfl⟩

theorem deleteTimeSlot_spec (ctx : Ctx) (db : DB) (i : String) (ex : TimeSlot)
    (hex : findById TimeSlot.id db.timeslots i = some ex) :
    ∃ ev, (deleteTimeSlot ctx db i).outbox = db.outbox ++ [ev] ∧
      ev.entity = .timeslots ∧ ev.operation = .delete ∧ ev.entityId = i ∧
      (deleteTimeSlot ctx db i).tags = db.tags ∧
      (deleteTimeSlot ctx db i).clock = db.clock ∧
      (deleteTimeSlot ctx db i).timeslots.map TimeSlot.id =
        db.timeslots.map TimeSlot.id := by
  have hid : ex.id = i := by
    have := List.find?_some hex
    simpa using this
  have hmem : ex ∈ db.timeslots := List.mem_of_find?_eq_some hex
  unfold deleteTimeSlot
  rw [hex]
  refine ⟨_, rfl, rfl, rfl, rfl, rfl, rfl, ?_⟩
  exact putById_map_key TimeSlot.id db.timeslots _ ⟨ex, hmem, hid.symm ▸ rfl⟩

theorem createTag_spec (ctx : Ctx) (db : DB) (tag : TagInput)
    (hdup : (db.tags.filter (fun t => t.domainId == tag.domainId)).find?
      (fun t => !(truthyNum t.deletedAt) &&
        t.name.toLower == tag.name.toLower) = none) :
    ∃ ev r, createTag ctx db tag = .ok r ∧
      r.2.outbox = db.outbox ++ [ev] ∧
      ev.entity = .tags ∧ ev.operation = .create ∧ ev.entityId = r.1.id := by
  simp only [createTag]
  rw [hdup]
  exact ⟨_, _, rfl, rfl, rfl, rfl, rfl⟩

theorem updateTag_spec (ctx : Ctx) (db : DB) (i : String) (u : TagPatch)
    (ex : Tag) (hex : findById Tag.id db.tags i = some ex) :
    ∃ ev r, updateTag ctx db i u = .ok r ∧
      r.2.outbox = db.outbox ++ [ev] ∧
      ev.entity = .tags ∧ ev.operation = .update ∧ ev.entityId = i := by
  unfold updateTag
  rw [hex]
  exact ⟨_, _, rfl, rfl, rfl, rfl, rfl⟩

theorem createDomain_spec (ctx : Ctx) (db : DB) (domain : DomainInput)
    (hdup : db.domains.find? (fun d => !(truthyNum d.deletedAt) &&
      d.name.toLower == domain.name.toLower) = none) :
    ∃ ev r, createDomain ctx db domain = .ok r ∧
      r.2.outbox = db.outbox ++ [ev] ∧
      ev.entity = .domains ∧ ev.operation = .create ∧ ev.entityId = r.1.id := by
  simp only [createDomain]
  rw [hdup]
  exact ⟨_, _, rfl, rfl, rfl, rfl, rfl⟩

theorem updateDomain_spec (ctx : Ctx) (db : DB) (i : String) (u : DomainPatch)
    (ex : DomainEntity) (hex : findById DomainEntity.id db.domains i = some ex) :
    ∃ ev r, updateDomain ctx db i u = .ok r ∧
      r.2.outbox = db.outbox ++ [ev] ∧
      ev.entity = .domains ∧ ev.operation = .update ∧ ev.entityId = i := by
  unfold updateDomain
  rw [hex]
  exact ⟨_, _, rfl, rfl, rfl, rfl, rfl⟩

theorem deleteDomain_spec (ctx : Ctx) (db : DB) (i : String)
    (ex : DomainEntity) (hex : findById DomainEntity.id db.domains i = some ex)
    (hact : ((db.tags.filter (fun t => t.domainId == i)).filter
      (fun t => !(truthyNum t.deletedAt))).isEmpty = true) :
    ∃ ev db2, deleteDomain ctx db i = .ok db2 ∧
      db2.outbox = db.outbox ++ [ev] ∧
      ev.entity = .domains ∧ ev.operation = .delete ∧ ev.entityId = i := by
  simp only [deleteDomain]
  rw [hex]
  simp only [hact, if_true]
  exact ⟨_, _, rfl, rfl, rfl, rfl, rfl⟩

theorem upsertDailyLog_update_spec (ctx : Ctx) (db : DB) (date md : String)
    (ex : DailyLog) (hfind : db.dailyLogs.find? (fun l => l.date == date) = some ex)
    (hnd : truthyNum ex.deletedAt = false) :
    ∃ ev, (upsertDailyLog ctx db date md).2.outbox = db.outbox ++ [ev] ∧
      ev.entity = .dailyLogs ∧ ev.operation = .update ∧ ev.entityId = ex.id := by
  simp only [upsertDailyLog]
  rw [hfind]
  simp only [hnd, Bool.not_false, if_true]
  exact ⟨_, rfl, rfl, rfl, rfl⟩

theorem upsertDailyLog_create_spec (ctx : Ctx) (db : DB) (date md : String)
    (hfind : db.dailyLogs.find? (fun l => l.date == date) = none) :
    ∃ ev, (upsertDailyLog ctx db date md).2.outbox = db.outbox ++ [ev] ∧
      ev.entity = .dailyLogs ∧ ev.operation = .create ∧
      ev.entityId = "log_" ++ date := by
  simp only [upsertDailyLog]
  rw [hfind]
  exact ⟨_, rfl, rfl, rfl, rfl⟩

/-- The event shape each cascade step of `deleteTag` produces for its own
slot: a delete when stripping the tag empties the slot's tag list, an
update otherwise. -/
def cascadeEvPred (tagId : String) (s : TimeSlot) (ev : OutboxEvent) : Prop :=
  ev.entity = .timeslots ∧ ev.entityId = s.id ∧
  ev.operation =
    (if (s.tagIds.filter (fun tid => tid != tagId)).isEmpty then Op.delete
     else Op.update)

theorem cascadeOne_spec (ctx : Ctx) (tagId : String) (db : DB) (slot : TimeSlot)
    (hpres : ∃ x ∈ db.timeslots, TimeSlot.id x = slot.id) :
    ∃ db2 ev, cascadeOne ctx tagId db slot = .ok db2 ∧
      db2.outbox = db.outbox ++ [ev] ∧
      cascadeEvPred tagId slot ev ∧
      db2.tags = db.tags ∧ db2.clock = db.clock ∧
      db2.timeslots.map TimeSlot.id = db.timeslots.map TimeSlot.id := by
  have hsome : (db.timeslots.find? (fun e => TimeSlot.id e == slot.id)).isSome := by
    rw [List.find?_isSome]
    obtain ⟨x, hx, he⟩ := hpres
    exact ⟨x, hx, by simp [he]⟩
  obtain ⟨ex, hex⟩ := Option.isSome_iff_exists.1 hsome
  have hex' : findById TimeSlot.id db.timeslots slot.id = some ex := hex
  unfold cascadeOne
  by_cases hrem : (slot.tagIds.filter (fun tid => tid != tagId)).isEmpty = true
  · rw [if_pos hrem]
    obtain ⟨ev, ho, he, hop, hei, htags, hclock, hmap⟩ :=
      deleteTimeSlot_spec ctx db slot.id ex hex'
    exact ⟨_, ev, rfl, ho, ⟨he, hei, by rw [hrem]; exact hop⟩, htags, hclock, hmap⟩
  · rw [if_neg hrem]
    obtain ⟨ev, r, hok, ho, he, hop, hei, htags, hclock, hmap⟩ :=
      updateTimeSlot_spec ctx db slot.id
        { tagIds := some (slot.tagIds.filter (fun tid => tid != tagId)) } ex hex'
    rw [hok]
    refine ⟨r.2, ev, rfl, ho, ⟨he, hei, ?_⟩, htags, hclock, hmap⟩
    rw [if_neg hrem]
    exact hop

theorem cascade_spec (ctx : Ctx) (tagId : String) (slots : List TimeSlot)
    (db : DB)
    (hpres : ∀ s ∈ slots, ∃ x ∈ db.timeslots, TimeSlot.id x = s.id) :
    ∃ db2 evs, cascade ctx tagId slots db = .ok db2 ∧
      db2.outbox = db.outbox ++ evs ∧
      List.Forall₂ (cascadeEvPred tagId) slots evs ∧
      db2.tags = db.tags ∧ db2.clock = db.clock ∧
      db2.timeslots.map TimeSlot.id = db.timeslots.map TimeSlot.id := by
  revert hpres
  induction slots generalizing db with
  | nil =>
    intro _
    exact ⟨db, [], rfl, by simp, List.Forall₂.nil, rfl, rfl, rfl⟩
  | cons s rest ih =>
    intro hpres
    obtain ⟨db1, ev1, hone, ho1, hp1, ht1, hc1, hm1⟩ :=
      cascadeOne_spec ctx tagId db s (hpres s (List.mem_cons_self s rest))
    have hpres1 : ∀ s2 ∈ rest, ∃ x ∈ db1.timeslots, TimeSlot.id x = s2.id := by
      intro s2 hs2
      have h0 := hpres s2 (List.mem_cons_of_mem s hs2)
      rw [exists_key_iff_mem_map] at h0 ⊢
      rw [hm1]
      exact h0
    obtain ⟨db2, evs, hcas, ho2, hfa, ht2, hc2, hm2⟩ := ih db1 hpres1
    refine ⟨db2, ev1 :: evs, ?_, ?_, List.Forall₂.cons hp1 hfa,
      ht2.trans ht1, hc2.trans hc1, hm2.trans hm1⟩
    · simp only [cascade, hone, hcas]
    · rw [ho2, ho1]
      simp

theorem deleteTag_spec (ctx : Ctx) (db : DB) (i : String) (tg : Tag)
    (hex : findById Tag.id db.tags i = some tg) :
    ∃ db3 evs tagEv, deleteTag ctx db i = .ok db3 ∧
      db3.outbox = db.outbox ++ evs ++ [tagEv] ∧
      tagEv.entity = .tags ∧ tagEv.operation = .delete ∧ tagEv.entityId = i ∧
      List.Forall₂ (cascadeEvPred i) (slotsWithTag db i) evs := by
  have hpres : ∀ s ∈ slotsWithTag db i, ∃ x ∈ db.timeslots, TimeSlot.id x = s.id := by
    intro s hs
    exact ⟨s, (List.mem_filter.1 hs).1, rfl⟩
  obtain ⟨db1, evs, hcas, ho1, hfa, ht1, hc1, hm1⟩ :=
    cascade_spec ctx i (slotsWithTag db i) db hpres
  simp only [deleteTag, hex, hcas]
  refine ⟨_, evs,
    (addToOutbox ctx
        { db1 with
          tags := putById Tag.id db1.tags
            { tg with deletedAt := some db1.clock, updatedAt := db1.clock } }
        .tags .delete i
        (.tag { tg with deletedAt := some db1.clock, updatedAt := db1.clock })).1,
    rfl, ?_, rfl, rfl, rfl, hfa⟩
  show (db1.outbox ++ [_]) = db.outbox ++ evs ++ [_]
  rw [ho1]
  rfl

/-- **C1**: every successful create, update, or delete call on the four
entity kinds appends exactly one OutboxEvent whose `entityId` matches the
mutated entity and whose `operation` matches the call (`upsertDailyLog`
appends an update event for the existing log or a create event for a fresh
one); the cascade writes inside `deleteTag` each append their own event
for their own slot id — one per affected slot, delete when the slot's tag
list empties, update otherwise — followed by exactly one delete event for
the tag itself. -/
theorem c1_outbox_completeness :
    (∀ ctx db inp, ∃ ev,
      (createTimeSlot ctx db inp).2.outbox = db.outbox ++ [ev] ∧
      ev.entity = EntityKind.timeslots ∧ ev.operation = Op.create ∧
      ev.entityId = (createTimeSlot ctx db inp).1.id) ∧
    (∀ ctx db i u ex, findById TimeSlot.id db.timeslots i = some ex →
      ∃ ev r, updateTimeSlot ctx db i u = .ok r ∧
        r.2.outbox = db.outbox ++ [ev] ∧
        ev.entity = EntityKind.timeslots ∧ ev.operation = Op.update ∧
        ev.entityId = i) ∧
    (∀ ctx db i ex, findById TimeSlot.id db.timeslots i = some ex →
      ∃ ev, (deleteTimeSlot ctx db i).outbox = db.outbox ++ [ev] ∧
        ev.entity = EntityKind.timeslots ∧ ev.operation = Op.delete ∧
        ev.entityId = i) ∧
    (∀ ctx db tag,
      (db.tags.filter (fun t => t.domainId == tag.domainId)).find?
        (fun t => !(truthyNum t.deletedAt) &&
          t.name.toLower == tag.name.toLower) = none →
      ∃ ev r, createTag ctx db tag = .ok r ∧
        r.2.outbox = db.outbox ++ [ev] ∧
        ev.entity = EntityKind.tags ∧ ev.operation = Op.create ∧
        ev.entityId = r.1.id) ∧
    (∀ ctx db i u ex, findById Tag.id db.tags i = some ex →
      ∃ ev r, updateTag ctx db i u = .ok r ∧
        r.2.outbox = db.outbox ++ [ev] ∧
        ev.entity = EntityKind.tags ∧ ev.operation = Op.update ∧
        ev.entityId = i) ∧
    (∀ ctx db i tg, findById Tag.id db.tags i = some tg →
      ∃ db3 evs tagEv, deleteTag ctx db i = .ok db3 ∧
        db3.outbox = db.outbox ++ evs ++ [tagEv] ∧
        tagEv.entity = EntityKind.tags ∧ tagEv.operation = Op.delete ∧
        tagEv.entityId = i ∧
        List.Forall₂ (cascadeEvPred i) (slotsWithTag db i) evs) ∧
    (∀ ctx db domain,
      db.domains.find? (fun d => !(truthyNum d.deletedAt) &&
        d.name.toLower == domain.name.toLower) = none →
      ∃ ev r, createDomain ctx db domain = .ok r ∧
        r.2.outbox = db.outbox ++ [ev] ∧
        ev.entity = EntityKind.domains ∧ ev.operation = Op.create ∧
        ev.entityId = r.1.id) ∧
    (∀ ctx db i u ex, findById DomainEntity.id db.domains i = some ex →
      ∃ ev r, updateDomain ctx db i u = .ok r ∧
        r.2.outbox = db.outbox ++ [ev] ∧
        ev.entity = EntityKind.domains ∧ ev.operation = Op.update ∧
        ev.entityId = i) ∧
    (∀ ctx db i ex, findById DomainEntity.id db.domains i = some ex →
      ((db.tags.filter (fun t => t.domainId == i)).filter
        (fun t => !(truthyNum t.deletedAt))).isEmpty = true →
      ∃ ev db2, deleteDomain ctx db i = .ok db2 ∧
        db2.outbox = db.outbox ++ [ev] ∧
        ev.entity = EntityKind.domains ∧ ev.operation = Op.delete ∧
        ev.entityId = i) ∧
    (∀ ctx db date md ex,
      db.dailyLogs.find? (fun l => l.date == date) = some ex →
      truthyNum ex.deletedAt = false →
      ∃ ev, (upsertDailyLog ctx db date md).2.outbox = db.outbox ++ [ev] ∧
        ev.entity = EntityKind.dailyLogs ∧ ev.operation = Op.update ∧
        ev.entityId = ex.id) ∧
    (∀ ctx db date md,
      db.dailyLogs.find? (fun l => l.date == date) = none →
      ∃ ev, (upsertDailyLog ctx db date md).2.outbox = db.outbox ++ [ev] ∧
        ev.entity = EntityKind.dailyLogs ∧ ev.operation = Op.create ∧
        ev.entityId = "log_" ++ date) := by
  refine ⟨createTimeSlot_spec, ?_, ?_, createTag_spec, updateTag_spec,
    deleteTag_spec, createDomain_spec, updateDomain_spec, deleteDomain_spec,
    upsertDailyLog_update_spec, upsertDailyLog_create_spec⟩
  · intro ctx db i u ex hex
    obtain ⟨ev, r, h1, h2, h3, h4, h5, -, -, -⟩ :=
      updateTimeSlot_spec ctx db i u ex hex
    exact ⟨ev, r, h1, h2, h3, h4, h5⟩
  · intro ctx db i ex hex
    obtain ⟨ev, h1, h2, h3, h4, -, -, -⟩ := deleteTimeSlot_spec ctx db i ex hex
    exact ⟨ev, h1, h2, h3, h4⟩

/-- Input for the create-slot witness. -/
def inpW : TimeSlotInput :=
  { start := 1, «end» := 2, note := none, tagIds := ["tag_1"], energy := none,
    mood := none }

def tagInW : TagInput := { domainId := "dom_9", name := "New" }

def domInW : DomainInput := { name := "Health", color := "#0f0", order := 1 }

/-- Tag table only. -/
def dbTag : DB :=
  { timeslots := [], tags := [tagLocal], domains := [], dailyLogs := [],
    outbox := [], syncState := none, conflicts := [], clock := 1000, gen := 0 }

/-- A slot referencing the tag, for the cascade witness (the slot's only
tag, so the cascade soft-deletes it). -/
def dbDel : DB :=
  { timeslots := [slotLocal], tags := [tagLocal], domains := [], dailyLogs := [],
    outbox := [], syncState := none, conflicts := [], clock := 1000, gen := 0 }

def domW : DomainEntity :=
  { id := "dom_1"
    name := "Work"
    color := "#00f"
    colorEnd := none
    order := 0
    createdAt := 1
    updatedAt := 1
    userId := none
    clientId := "c"
    deletedAt := none
    archivedAt := none }

def dbDom : DB :=
  { timeslots := [], tags := [], domains := [domW], dailyLogs := [],
    outbox := [], syncState := none, conflicts := [], clock := 1000, gen := 0 }

def logW : DailyLog :=
  { id := "log_2026-01-01"
    date := "2026-01-01"
    markdown := "hello"
    createdAt := 1
    updatedAt := 1
    userId := none
    clientId := "c"
    deletedAt := none }

def dbLog : DB :=
  { timeslots := [], tags := [], domains := [], dailyLogs := [logW],
    outbox := [], syncState := none, conflicts := [], clock := 1000, gen := 0 }

theorem c1_outbox_completeness_witness :
    (∃ ev, (createTimeSlot ctxW dbEmpty inpW).2.outbox = dbEmpty.outbox ++ [ev] ∧
      ev.entity = EntityKind.timeslots ∧ ev.operation = Op.create ∧
      ev.entityId = (createTimeSlot ctxW dbEmpty inpW).1.id) ∧
    (∃ ev r, updateTimeSlot ctxW dbC5free "slot_1" {} = .ok r ∧
      r.2.outbox = dbC5free.outbox ++ [ev] ∧
      ev.entity = EntityKind.timeslots ∧ ev.operation = Op.update ∧
      ev.entityId = "slot_1") ∧
    (∃ ev, (deleteTimeSlot ctxW dbC5free "slot_1").outbox =
        dbC5free.outbox ++ [ev] ∧
      ev.entity = EntityKind.timeslots ∧ ev.operation = Op.delete ∧
      ev.entityId = "slot_1") ∧
    (∃ ev r, createTag ctxW dbEmpty tagInW = .ok r ∧
      r.2.outbox = dbEmpty.outbox ++ [ev] ∧
      ev.entity = EntityKind.tags ∧ ev.operation = Op.create ∧
      ev.entityId = r.1.id) ∧
    (∃ ev r, updateTag ctxW dbTag "tag_1" {} = .ok r ∧
      r.2.outbox = dbTag.outbox ++ [ev] ∧
      ev.entity = EntityKind.tags ∧ ev.operation = Op.update ∧
      ev.entityId = "tag_1") ∧
    (∃ db3 evs tagEv, deleteTag ctxW dbDel "tag_1" = .ok db3 ∧
      db3.outbox = dbDel.outbox ++ evs ++ [tagEv] ∧
      tagEv.entity = EntityKind.tags ∧ tagEv.operation = Op.delete ∧
      tagEv.entityId = "tag_1" ∧
      List.Forall₂ (cascadeEvPred "tag_1") (slotsWithTag dbDel "tag_1") evs) ∧
    (∃ ev r, createDomain ctxW dbEmpty domInW = .ok r ∧
      r.2.outbox = dbEmpty.outbox ++ [ev] ∧
      ev.entity = EntityKind.domains ∧ ev.operation = Op.create ∧
      ev.entityId = r.1.id) ∧
    (∃ ev r, updateDomain ctxW dbDom "dom_1" {} = .ok r ∧
      r.2.outbox = dbDom.outbox ++ [ev] ∧
      ev.entity = EntityKind.domains ∧ ev.operation = Op.update ∧
      ev.entityId = "dom_1") ∧
    (∃ ev db2, deleteDomain ctxW dbDom "dom_1" = .ok db2 ∧
      db2.outbox = dbDom.outbox ++ [ev] ∧
      ev.entity = EntityKind.domains ∧ ev.operation = Op.delete ∧
      ev.entityId = "dom_1") ∧
    (∃ ev, (upsertDailyLog ctxW dbLog "2026-01-01" "edited").2.outbox =
        dbLog.outbox ++ [ev] ∧
      ev.entity = EntityKind.dailyLogs ∧ ev.operation = Op.update ∧
      ev.entityId = logW.id) ∧
    (∃ ev, (upsertDailyLog ctxW dbEmpty "2026-02-02" "fresh").2.outbox =
        dbEmpty.outbox ++ [ev] ∧
      ev.entity = EntityKind.dailyLogs ∧ ev.operation = Op.create ∧
      ev.entityId = "log_" ++ "2026-02-02") := by
  obtain ⟨hA, hB, hC, hD, hE, hF, hG, hH, hI, hJ, hK⟩ := c1_outbox_completeness
  exact ⟨hA ctxW dbEmpty inpW,
    hB ctxW dbC5free "slot_1" {} slotLocal (by decide),
    hC ctxW dbC5free "slot_1" slotLocal (by decide),
    hD ctxW dbEmpty tagInW (by decide),
    hE ctxW dbTag "tag_1" {} tagLocal (by decide),
    hF ctxW dbDel "tag_1" tagLocal (by decide),
    hG ctxW dbEmpty domInW (by decide),
    hH ctxW dbDom "dom_1" {} domW (by decide),
    hI ctxW dbDom "dom_1" domW (by decide) (by decide),
    hJ ctxW dbLog "2026-01-01" "edited" logW (by decide) (by decide),
    hK ctxW dbEmpty "2026-02-02" "fresh" (by decide)⟩

end Timeflow
